import Mathlib

/-!
Shallow embedding of the gps-receiver repository (a software-defined GPS L1
C/A receiver) and proofs about it.

Conventions of the embedding:
- Python `Bit = Literal[0, 1]` is modelled as `Bool` (`false` = 0, `true` = 1).
- Python `UnresolvedBit / Pseudobit = Literal[-1, 1]` is modelled as `Int`.
- Python floats are modelled as `ℚ`; in particular `np.pi` is modelled by the
  exact rational value of the IEEE-754 double `numpy.pi`.
- A raised exception is modelled as `none` / `Except.error`.
-/

set_option maxHeartbeats 1000000
set_option maxRecDepth 8000

namespace GpsReceiver

/-- `types.Side`: which half of a 1 ms chunk of samples holds the dominant
PRN code. -/
inductive Side where
| LEFT
| RIGHT
deriving DecidableEq, Repr

/-- `utils.parse_int_from_bits`: parses the given bits as an unsigned
integer (most significant bit first). -/
def parse_int_from_bits (bits : List Bool) : ℕ :=
bits.foldl (fun acc b => 2 * acc + (if b then 1 else 0)) 0

/-- The exact value of the IEEE-754 double `numpy.pi`, used by `world.py` to
convert semi-circles to radians. -/
def NP_PI : ℚ := 884279719003555 / 281474976710656

/-- `subframes.Telemetry`: a telemetry (TLM) word. -/
structure Telemetry where
  integrity_status_flag : Bool

/-- `subframes.Handover`: a handover word (HOW). -/
structure Handover where
  tow_count_msbs : List Bool
  alert_flag : Bool
  anti_spoof_flag : Bool
  subframe_id : ℕ

/-- Payload of `subframes.Subframe1`. -/
structure Subframe1Data where
  week_number_mod_1024 : ℕ
  codes_on_l2_channel : List Bool
  ura_index : ℕ
  sv_health : List Bool
  issue_of_data_clock : List Bool
  l2_p_data_flag : Bool
  t_gd : ℚ
  t_oc : ℚ
  a_f2 : ℚ
  a_f1 : ℚ
  a_f0 : ℚ

/-- Payload of `subframes.Subframe2`. -/
structure Subframe2Data where
  issue_of_data_ephemeris : List Bool
  c_rs : ℚ
  delta_n : ℚ
  m0 : ℚ
  c_uc : ℚ
  e : ℚ
  c_us : ℚ
  sqrt_a : ℚ
  t_oe : ℚ
  fit_interval_flag : Bool
  age_of_data_offset : List Bool

/-- Payload of `subframes.Subframe3`. -/
structure Subframe3Data where
  c_ic : ℚ
  omega_0 : ℚ
  c_is : ℚ
  i_0 : ℚ
  c_rc : ℚ
  omega : ℚ
  omega_dot : ℚ
  issue_of_data_ephemeris : List Bool
  idot : ℚ

/-- The variant part of a subframe: `Subframe1` .. `Subframe5`. Subframes 4
and 5 carry nothing beyond the TLM and HOW words. -/
inductive SubframeBody where
| sf1 (d : Subframe1Data)
| sf2 (d : Subframe2Data)
| sf3 (d : Subframe3Data)
| sf4
| sf5

/-- `subframes.Subframe` together with its concrete subclass payload. -/
structure Subframe where
  telemetry : Telemetry
  handover : Handover
  body : SubframeBody

/-! ## World model (`gpsreceiver/world.py`) -/

/-- `world.SatelliteParameters`: the information required for satellite
calculations. Timestamps are modelled as rationals. -/
structure SatelliteParameters where
  a_f0 : ℚ
  a_f1 : ℚ
  a_f2 : ℚ
  c_ic : ℚ
  c_is : ℚ
  c_rc : ℚ
  c_rs : ℚ
  c_uc : ℚ
  c_us : ℚ
  delta_n : ℚ
  e : ℚ
  i_0 : ℚ
  i_dot : ℚ
  m_0 : ℚ
  omega : ℚ
  omega_0 : ℚ
  omega_dot : ℚ
  prn_code_trailing_edge_timestamp : ℚ
  prn_count : ℤ
  sqrt_a : ℚ
  sv_health : List Bool
  t_gd : ℚ
  t_oc : ℚ
  t_oe : ℚ
  tow_count : ℕ

/-- `world.SatelliteParameters.handle_subframe`. Every subframe updates
`tow_count` and subtracts 6000 from `prn_count`; subframes 1-3 additionally
overwrite their fields (semi-circle fields are multiplied by pi). -/
def SatelliteParameters.handle_subframe (sp : SatelliteParameters)
    (subframe : Subframe) : SatelliteParameters :=
  let sp := { sp with
    prn_count := sp.prn_count - 6000,
    tow_count := parse_int_from_bits subframe.handover.tow_count_msbs }
  match subframe.body with
  | .sf1 d => { sp with
      a_f0 := d.a_f0, a_f1 := d.a_f1, a_f2 := d.a_f2,
      sv_health := d.sv_health, t_gd := d.t_gd, t_oc := d.t_oc }
  | .sf2 d => { sp with
      c_rs := d.c_rs, c_uc := d.c_uc, c_us := d.c_us,
      delta_n := d.delta_n * NP_PI, e := d.e, m_0 := d.m0 * NP_PI,
      sqrt_a := d.sqrt_a, t_oe := d.t_oe }
  | .sf3 d => { sp with
      c_ic := d.c_ic, c_is := d.c_is, c_rc := d.c_rc,
      i_0 := d.i_0 * NP_PI, i_dot := d.idot * NP_PI,
      omega := d.omega * NP_PI, omega_0 := d.omega_0 * NP_PI,
      omega_dot := d.omega_dot * NP_PI }
  | .sf4 => sp
  | .sf5 => sp

/-- `world.PendingSatelliteParameters`: collects information about a newly
tracked satellite until everything needed for a `SatelliteParameters` is
present. -/
structure PendingSatelliteParameters where
  prn_code_trailing_edge_timestamp : Option ℚ := none
  side : Option Side := none
  subframe_1 : Option Subframe1Data := none
  subframe_2 : Option Subframe2Data := none
  subframe_3 : Option Subframe3Data := none
  tow_count : Option ℕ := none

/-- `world.PendingSatelliteParameters.handle_subframe`. -/
def PendingSatelliteParameters.handle_subframe
    (p : PendingSatelliteParameters) (subframe : Subframe) :
    PendingSatelliteParameters :=
  let p := { p with
    tow_count := some (parse_int_from_bits subframe.handover.tow_count_msbs) }
  match subframe.body with
  | .sf1 d => { p with subframe_1 := some d }
  | .sf2 d => { p with subframe_2 := some d }
  | .sf3 d => { p with subframe_3 := some d }
  | .sf4 => p
  | .sf5 => p

/-- `world.PendingSatelliteParameters.to_satellite_parameters`: attempts to
construct a `SatelliteParameters`; returns `none` if any required piece of
information is still missing. -/
def PendingSatelliteParameters.to_satellite_parameters
    (p : PendingSatelliteParameters) : Option SatelliteParameters :=
  match p.prn_code_trailing_edge_timestamp, p.side, p.subframe_1,
      p.subframe_2, p.subframe_3, p.tow_count with
  | some ts, some side, some s1, some s2, some s3, some tow =>
    some {
      a_f0 := s1.a_f0, a_f1 := s1.a_f1, a_f2 := s1.a_f2,
      c_ic := s3.c_ic, c_is := s3.c_is, c_rc := s3.c_rc,
      c_rs := s2.c_rs, c_uc := s2.c_uc, c_us := s2.c_us,
      delta_n := s2.delta_n * NP_PI, e := s2.e,
      i_0 := s3.i_0 * NP_PI, i_dot := s3.idot * NP_PI,
      m_0 := s2.m0 * NP_PI, omega := s3.omega * NP_PI,
      omega_0 := s3.omega_0 * NP_PI, omega_dot := s3.omega_dot * NP_PI,
      prn_code_trailing_edge_timestamp := ts,
      prn_count := if side = Side.RIGHT then -1 else 0,
      sqrt_a := s2.sqrt_a, sv_health := s1.sv_health,
      t_gd := s1.t_gd, t_oc := s1.t_oc, t_oe := s2.t_oe,
      tow_count := tow }
  | _, _, _, _, _, _ => none

/-- The two ways a `PendingSatelliteParameters` is mutated by
`World.handle_prns_tracked` and `World.handle_subframe`: a PRN-edge
observation stores the trailing-edge timestamp together with the side, and a
subframe receipt goes through `handle_subframe`. -/
inductive PendingOp where
| prnsTracked (side : Side) (trailing_edge_timestamp : ℚ)
| subframe (sf : Subframe)

/-- Applies one mutation to a pending record, exactly as the corresponding
branch of `World.handle_prns_tracked` / `World.handle_subframe` does. -/
def applyPendingOp (p : PendingSatelliteParameters) :
    PendingOp → PendingSatelliteParameters
| .prnsTracked side ts =>
  { p with prn_code_trailing_edge_timestamp := some ts, side := some side }
| .subframe sf => p.handle_subframe sf

/-- A pending record as built up by the `World` from the freshly constructed
`PendingSatelliteParameters()` by a sequence of operations. -/
def runPendingOps (ops : List PendingOp) : PendingSatelliteParameters :=
ops.foldl applyPendingOp {}

/-- `world.EcefSolution`: clock bias and ECEF position of a computed fix. -/
structure EcefSolution where
  clock_bias : ℚ
  position_x : ℚ
  position_y : ℚ
  position_z : ℚ

/-- The state of `world.World`: pending parameters of recently tracked
satellites and full parameters of satellites whose subframes 1-3 have been
received, both keyed by satellite id. -/
structure World where
  pending_satellite_parameters : List (ℕ × PendingSatelliteParameters)
  satellite_parameters : List (ℕ × SatelliteParameters)

/-- The satellite ids `World.compute_solution` deems usable: ids holding a
promoted `SatelliteParameters` whose `sv_health` has first bit 0. -/
def World.usableSatelliteIds (w : World) : List ℕ :=
(w.satellite_parameters.filter
  (fun p => p.2.sv_health.headD true = false)).map Prod.fst

/-- `world.World.compute_solution`. The ten Gauss-Newton iterations over the
usable satellites are abstracted into the function argument `gaussNewton`;
everything up to and including the less-than-four-satellites gate follows the
source. -/
def World.compute_solution (gaussNewton : List ℕ → EcefSolution)
    (w : World) : Option EcefSolution :=
  let satellite_ids := w.usableSatelliteIds
  if satellite_ids.length < 4 then none
  else some (gaussNewton satellite_ids)

/-! ## Tracker (`tracker.py`) -/

/-- `config.PRN_CODE_PHASE_SHIFT_TRACKING_LOOP_GAIN` (`0.002`). -/
def PRN_CODE_PHASE_SHIFT_TRACKING_LOOP_GAIN : ℚ := 2 / 1000

/-- `constants.L1_FREQUENCY`, in Hz. -/
def L1_FREQUENCY : ℚ := 1575420000

/-- The length of an upsampled PRN code in half-chips
(`Tracker._prn_code_length`, always 2046). -/
def PRN_CODE_LENGTH : ℚ := 2046

/-- The local `prn_code_phase_shift` computed by
`Tracker._track_prn_code_phase_shift` before wrapping: the previous shift
minus the discriminator scaled by the loop gain and minus the half-chips due
to the Doppler effect. The two data-dependent float inputs (the
early-minus-late power discriminator and the latest carrier frequency shift
estimate) are taken as arguments. -/
def prn_code_phase_shift_update (prn_code_phase_shift discriminator
    carrier_frequency_shift : ℚ) : ℚ :=
  let half_chips_due_to_doppler_effect :=
    PRN_CODE_LENGTH * carrier_frequency_shift / L1_FREQUENCY
  prn_code_phase_shift
    - discriminator * PRN_CODE_PHASE_SHIFT_TRACKING_LOOP_GAIN
    - half_chips_due_to_doppler_effect

/-- The wrap step of `Tracker._track_prn_code_phase_shift`: wrap the updated
shift back into range, recording over which side it wrapped (if any). -/
def track_prn_code_phase_shift (prn_code_phase_shift discriminator
    carrier_frequency_shift : ℚ) : ℚ × Option Side :=
  let shift := prn_code_phase_shift_update prn_code_phase_shift discriminator
    carrier_frequency_shift
  if shift < 0 then (shift + PRN_CODE_LENGTH, some Side.LEFT)
  else if PRN_CODE_LENGTH ≤ shift then (shift - PRN_CODE_LENGTH, some Side.RIGHT)
  else (shift, none)

/-- The branch of `Tracker.handle_1ms_of_samples` that turns the wrap side
returned by `_track_prn_code_phase_shift` into the PRN count reported to
`World.handle_prns_tracked` and the new stored `_side`. -/
def prnCountAndSide (wrap_side : Option Side) (side : Side) : ℕ × Side :=
  match wrap_side with
  | none => (1, side)
  | some Side.LEFT => (2, Side.LEFT)
  | some Side.RIGHT => (0, Side.RIGHT)

/-! ## Acquirer (`acquirer.py`) -/

/-- The two pieces of an `Acquisition` that drive the hierarchical Doppler
search loop: the candidate's carrier frequency shift and its peak-to-mean
strength. -/
structure Acquisition where
  carrier_frequency_shift : ℚ
  strength : ℚ

/-- `np.linspace lo hi n`: `n` evenly spaced values from `lo` to `hi`,
endpoints included. -/
def linspace (lo hi : ℚ) (n : ℕ) : List ℚ :=
(List.range n).map fun (i : ℕ) => lo + (hi - lo) * (i : ℚ) / ((n : ℚ) - 1)

/-- One iteration of the hierarchical Doppler search, as recorded for
analysis: the centre and half-range searched, how many frequency shifts were
evaluated, and the best acquisition seen so far at the end of the
iteration. -/
structure SearchIteration where
  centre : ℚ
  half_range : ℚ
  shift_count : ℕ
  best_after : Acquisition

/-- The `if best_acquisition is None or new_acquisition.strength >
best_acquisition.strength` update of the best acquisition seen so far. -/
def updateBest (best : Option Acquisition) (new : Acquisition) : Acquisition :=
  match best with
  | none => new
  | some b => if b.strength < new.strength then new else b

/-- The `while half_frequency_shift_range >= threshold` loop shared by the
two `_acquire_satellite` variants. `oracle` abstracts
`_acquire_satellite_at_frequency_shifts` (the FFT correlation search, whose
result depends only on the probed frequency shifts for fixed sample data);
`num_shifts` is the `np.linspace` point count. The loop starts from `best`,
`centre` and `half`, updates the best acquisition when a stronger candidate
appears, recentres on the best acquisition's frequency and halves the range.
`fuel` bounds the recursion and is irrelevant once the range has dropped
below the threshold. Returns the per-iteration trace and the final best. -/
def hierarchicalSearch (oracle : List ℚ → Acquisition) (num_shifts : ℕ)
    (threshold : ℚ) : ℕ → Option Acquisition → ℚ → ℚ →
    List SearchIteration × Option Acquisition
| 0, best, _, _ => ([], best)
| fuel + 1, best, centre, half =>
  if threshold ≤ half then
    let shifts := linspace (centre - half) (centre + half) num_shifts
    let best' := updateBest best (oracle shifts)
    let rest := hierarchicalSearch oracle num_shifts threshold fuel
      (some best') best'.carrier_frequency_shift (half / 2)
    (⟨centre, half, shifts.length, best'⟩ :: rest.1, rest.2)
  else ([], best)

/-- `acquirer.Acquirer._acquire_satellite` (`gps-receiver/gpsreceiver`
layout): hierarchical Doppler search centred at 0, initial half-range
7168 Hz, 29 linearly spaced shifts per iteration, looping while the
half-range is at least 14 Hz. -/
def acquire_satellite_search (oracle : List ℚ → Acquisition) :
    List SearchIteration × Option Acquisition :=
hierarchicalSearch oracle 29 14 16 none 0 7168

/-- `gpsreceiver/acquirer._acquire_satellite` (nested package layout):
hierarchical Doppler search centred at 0, initial half-range 7680 Hz,
31 linearly spaced shifts per iteration, looping while the half-range is at
least 15 Hz. -/
def acquire_satellite_search_pkg (oracle : List ℚ → Acquisition) :
    List SearchIteration × Option Acquisition :=
hierarchicalSearch oracle 31 15 16 none 0 7680

/-- The half-range schedule of the hierarchical search: the successive
halvings of the initial half-range down to the threshold. -/
def halfRangeSeq (threshold : ℚ) : ℕ → ℚ → List ℚ
| 0, _ => []
| fuel + 1, half =>
  if threshold ≤ half then half :: halfRangeSeq threshold fuel (half / 2)
  else []

/-! ## Subframe parity decoding (`subframe_decoder._decode_subframe_data`) -/

/-- Data-bit index list (1-based) for parity bit D25, from table 20-XIV of
IS-GPS-200, as spelled out in the first `_verify_parity` call. -/
def PARITY_INDICES_25 : List ℕ := [1, 2, 3, 5, 6, 10, 11, 12, 13, 14, 17, 18, 20, 23]

/-- Data-bit index list for parity bit D26. -/
def PARITY_INDICES_26 : List ℕ := [2, 3, 4, 6, 7, 11, 12, 13, 14, 15, 18, 19, 21, 24]

/-- Data-bit index list for parity bit D27. -/
def PARITY_INDICES_27 : List ℕ := [1, 3, 4, 5, 7, 8, 12, 13, 14, 15, 16, 19, 20, 22]

/-- Data-bit index list for parity bit D28. -/
def PARITY_INDICES_28 : List ℕ := [2, 4, 5, 6, 8, 9, 13, 14, 15, 16, 17, 20, 21, 23]

/-- Data-bit index list for parity bit D29. -/
def PARITY_INDICES_29 : List ℕ := [1, 3, 5, 6, 7, 9, 10, 14, 15, 16, 17, 18, 21, 22, 24]

/-- Data-bit index list for parity bit D30. -/
def PARITY_INDICES_30 : List ℕ := [3, 5, 6, 8, 9, 10, 11, 13, 15, 19, 22, 23, 24]

/-- The parity value computed by `subframe_decoder._verify_parity`:
`(previous_word_parity + sum of the selected data bits) % 2`, i.e. the XOR of
the previous word's parity bit with the selected data bits (indices are
1-based, as in table 20-XIV). -/
def computed_parity (previous_word_parity : Bool) (word_data : List Bool)
    (word_data_indices : List ℕ) : Bool :=
word_data_indices.foldl
  (fun acc i => xor acc (word_data.getD (i - 1) false)) previous_word_parity

/-- `subframe_decoder._verify_parity` as a check: `true` iff the computed
parity equals the transmitted parity (the source raises `ParityError`
otherwise). -/
def verify_parity (transmitted_parity previous_word_parity : Bool)
    (word_data : List Bool) (word_data_indices : List ℕ) : Bool :=
computed_parity previous_word_parity word_data word_data_indices
  == transmitted_parity

/-- The data bits of one word, recovered by XORing each of the first 24
transmitted bits with bit 30 of the previous word. -/
def decodeWordData (word_transmitted : List Bool) (last_word_bit_30 : Bool) :
    List Bool :=
(word_transmitted.take 24).map fun b => xor b last_word_bit_30

/-- The six parity checks run for one word by
`_decode_subframe_data`, in source order. `true` iff all six pass. -/
def checkWordParity (word_transmitted : List Bool)
    (last_word_bit_29 last_word_bit_30 : Bool) : Bool :=
let wd := decodeWordData word_transmitted last_word_bit_30
verify_parity (word_transmitted.getD 24 false) last_word_bit_29 wd PARITY_INDICES_25 &&
verify_parity (word_transmitted.getD 25 false) last_word_bit_30 wd PARITY_INDICES_26 &&
verify_parity (word_transmitted.getD 26 false) last_word_bit_29 wd PARITY_INDICES_27 &&
verify_parity (word_transmitted.getD 27 false) last_word_bit_30 wd PARITY_INDICES_28 &&
verify_parity (word_transmitted.getD 28 false) last_word_bit_30 wd PARITY_INDICES_29 &&
verify_parity (word_transmitted.getD 29 false) last_word_bit_29 wd PARITY_INDICES_30

/-- The word loop of `_decode_subframe_data`: decode and parity-check each
30-bit word in turn, threading bits 29 and 30 of the previous transmitted
word (`false` before the first word); `none` models a raised `ParityError`. -/
def decodeWords : List (List Bool) → Bool → Bool → Option (List Bool)
| [], _, _ => some []
| word_transmitted :: rest, b29, b30 =>
  if checkWordParity word_transmitted b29 b30 then
    (decodeWords rest (word_transmitted.getD 28 false)
        (word_transmitted.getD 29 false)).map
      (fun ds => decodeWordData word_transmitted b30 ++ ds)
  else none

/-- Splits a subframe into its words: `range(0, 300, 30)` yields ten 30-bit
slices. -/
def splitWords : ℕ → List Bool → List (List Bool)
| 0, _ => []
| n + 1, l => l.take 30 :: splitWords n (l.drop 30)

/-- `subframe_decoder._decode_subframe_data`: decodes a subframe's 240 data
bits from its 300 transmitted bits, checking parity. `none` models a raised
`ParityError` (a length other than 300 raises `InvariantError` in the
source; it is also mapped to `none` here and never arises in the claims). -/
def decode_subframe_data (subframe_transmitted : List Bool) :
    Option (List Bool) :=
if subframe_transmitted.length = 300 then
  decodeWords (splitWords 10 subframe_transmitted) false false
else none

/-- Synthetic construction of one correctly transmitted word from 24 source
data bits and bits 29/30 of the previous transmitted word: the data bits
XORed with bit 30, followed by the six parity bits of table 20-XIV. -/
def encodeWord (word_data : List Bool) (b29 b30 : Bool) : List Bool :=
word_data.map (fun b => xor b b30) ++
  [computed_parity b29 word_data PARITY_INDICES_25,
   computed_parity b30 word_data PARITY_INDICES_26,
   computed_parity b29 word_data PARITY_INDICES_27,
   computed_parity b30 word_data PARITY_INDICES_28,
   computed_parity b30 word_data PARITY_INDICES_29,
   computed_parity b29 word_data PARITY_INDICES_30]

/-- Synthetic construction of a whole transmitted subframe from its ten
24-bit data words, threading bits 29/30 between words. -/
def encodeWords : List (List Bool) → Bool → Bool → List Bool
| [], _, _ => []
| w :: rest, b29, b30 =>
  encodeWord w b29 b30 ++
    encodeWords rest (computed_parity b30 w PARITY_INDICES_29)
      (computed_parity b29 w PARITY_INDICES_30)

/-- A correctly transmitted 300-bit subframe built from a 240-bit data
layout (given as ten 24-bit words); bits 29 and 30 of the word before the
first are taken as 0. -/
def encode_subframe (words : List (List Bool)) : List Bool :=
encodeWords words false false

/-- Flips the single bit at index `i`. -/
def flipBit (l : List Bool) (i : ℕ) : List Bool := l.set i (! l.getD i false)

/-! ## Subframe field parsing (`subframe_decoder._SubframeDecoder`) -/

/-- The ways field parsing can fail, each an `InvariantError` in the
source: reading past the 240 decoded data bits (`_get_bits`), an invalid TLM
preamble (`_decode_telemetry`), or an invalid subframe id
(`_decode_handover` / `decode`). -/
inductive DecodeError where
| pastEnd
| invalidPreamble
| invalidSubframeId
deriving DecidableEq, Repr

/-- `_SubframeDecoder._get_bits`: reads `bit_count` bits at the cursor,
failing if that would pass the end of the decoded data. -/
def get_bits (data : List Bool) (cursor bit_count : ℕ) :
    Except DecodeError (List Bool × ℕ) :=
if cursor + bit_count ≤ data.length then
  .ok ((data.drop cursor).take bit_count, cursor + bit_count)
else .error .pastEnd

/-- `_SubframeDecoder._get_bit`. -/
def get_bit (data : List Bool) (cursor : ℕ) :
    Except DecodeError (Bool × ℕ) := do
  let (bits, c) ← get_bits data cursor 1
  .ok (bits.headD false, c)

/-- `_SubframeDecoder._get_int`: reads bits MSB-first as an unsigned
integer. -/
def get_int (data : List Bool) (cursor bit_count : ℕ) :
    Except DecodeError (ℕ × ℕ) := do
  let (bits, c) ← get_bits data cursor bit_count
  .ok (parse_int_from_bits bits, c)

/-- `_SubframeDecoder._get_float`: reads an integer, optionally reinterprets
it in two's complement, and scales by `2 ^ scale_factor_exponent`. -/
def get_float (data : List Bool) (cursor bit_count : ℕ)
    (scale_factor_exponent : ℤ) (twos_complement : Bool) :
    Except DecodeError (ℚ × ℕ) := do
  let (n, c) ← get_int data cursor bit_count
  let number : ℤ :=
    if twos_complement && n.testBit (bit_count - 1) then (n : ℤ) - 2 ^ bit_count
    else (n : ℤ)
  .ok ((number : ℚ) * (2 : ℚ) ^ scale_factor_exponent, c)

/-- `_SubframeDecoder._decode_telemetry`: fixed preamble `10001011`, 14
reserved TLM bits, the integrity status flag, one reserved bit. -/
def decode_telemetry (data : List Bool) (cursor : ℕ) :
    Except DecodeError (Telemetry × ℕ) := do
  let (preamble, c) ← get_bits data cursor 8
  if preamble = [true, false, false, false, true, false, true, true] then do
    let (_, c) ← get_bits data c 14
    let (integrity_status_flag, c) ← get_bit data c
    let (_, c) ← get_bits data c 1
    .ok (⟨integrity_status_flag⟩, c)
  else .error .invalidPreamble

/-- `_SubframeDecoder._decode_handover`: 17 TOW-count MSBs, alert and
anti-spoof flags, the subframe id (validated to be 1..5), two parity
bits. -/
def decode_handover (data : List Bool) (cursor : ℕ) :
    Except DecodeError (Handover × ℕ) := do
  let (tow_count_msbs, c) ← get_bits data cursor 17
  let (alert_flag, c) ← get_bit data c
  let (anti_spoof_flag, c) ← get_bit data c
  let (subframe_id, c) ← get_int data c 3
  if subframe_id = 1 ∨ subframe_id = 2 ∨ subframe_id = 3 ∨ subframe_id = 4
      ∨ subframe_id = 5 then do
    let (_, c) ← get_bits data c 2
    .ok (⟨tow_count_msbs, alert_flag, anti_spoof_flag, subframe_id⟩, c)
  else .error .invalidSubframeId

/-- `_SubframeDecoder._decode_subframe_1`. -/
def decode_subframe_1 (data : List Bool) (cursor : ℕ) (telemetry : Telemetry)
    (handover : Handover) : Except DecodeError (Subframe × ℕ) := do
  let (week_number_mod_1024, c) ← get_int data cursor 10
  let (codes_on_l2_channel, c) ← get_bits data c 2
  let (ura_index, c) ← get_int data c 4
  let (sv_health, c) ← get_bits data c 6
  let (issue_of_data_clock_msbs, c) ← get_bits data c 2
  let (l2_p_data_flag, c) ← get_bit data c
  let (_, c) ← get_bits data c 87
  let (t_gd, c) ← get_float data c 8 (-31) true
  let (issue_of_data_clock_lsbs, c) ← get_bits data c 8
  let (t_oc, c) ← get_float data c 16 4 false
  let (a_f2, c) ← get_float data c 8 (-55) true
  let (a_f1, c) ← get_float data c 16 (-43) true
  let (a_f0, c) ← get_float data c 22 (-31) true
  let (_, c) ← get_bits data c 2
  .ok (⟨telemetry, handover,
    .sf1 ⟨week_number_mod_1024, codes_on_l2_channel, ura_index, sv_health,
      issue_of_data_clock_msbs ++ issue_of_data_clock_lsbs, l2_p_data_flag,
      t_gd, t_oc, a_f2, a_f1, a_f0⟩⟩, c)

/-- `_SubframeDecoder._decode_subframe_2`. -/
def decode_subframe_2 (data : List Bool) (cursor : ℕ) (telemetry : Telemetry)
    (handover : Handover) : Except DecodeError (Subframe × ℕ) := do
  let (issue_of_data_ephemeris, c) ← get_bits data cursor 8
  let (c_rs, c) ← get_float data c 16 (-5) true
  let (delta_n, c) ← get_float data c 16 (-43) true
  let (m0, c) ← get_float data c 32 (-31) true
  let (c_uc, c) ← get_float data c 16 (-29) true
  let (e, c) ← get_float data c 32 (-33) false
  let (c_us, c) ← get_float data c 16 (-29) true
  let (sqrt_a, c) ← get_float data c 32 (-19) false
  let (t_oe, c) ← get_float data c 16 4 false
  let (fit_interval_flag, c) ← get_bit data c
  let (age_of_data_offset, c) ← get_bits data c 5
  let (_, c) ← get_bits data c 2
  .ok (⟨telemetry, handover,
    .sf2 ⟨issue_of_data_ephemeris, c_rs, delta_n, m0, c_uc, e, c_us, sqrt_a,
      t_oe, fit_interval_flag, age_of_data_offset⟩⟩, c)

/-- `_SubframeDecoder._decode_subframe_3`. -/
def decode_subframe_3 (data : List Bool) (cursor : ℕ) (telemetry : Telemetry)
    (handover : Handover) : Except DecodeError (Subframe × ℕ) := do
  let (c_ic, c) ← get_float data cursor 16 (-29) true
  let (omega_0, c) ← get_float data c 32 (-31) true
  let (c_is, c) ← get_float data c 16 (-29) true
  let (i_0, c) ← get_float data c 32 (-31) true
  let (c_rc, c) ← get_float data c 16 (-5) true
  let (omega, c) ← get_float data c 32 (-31) true
  let (omega_dot, c) ← get_float data c 24 (-43) true
  let (issue_of_data_ephemeris, c) ← get_bits data c 8
  let (idot, c) ← get_float data c 14 (-43) true
  let (_, c) ← get_bits data c 2
  .ok (⟨telemetry, handover,
    .sf3 ⟨c_ic, omega_0, c_is, i_0, c_rc, omega, omega_dot,
      issue_of_data_ephemeris, idot⟩⟩, c)

/-- `_SubframeDecoder.decode` applied to the 240 decoded data bits: parse
the TLM and HOW words, then dispatch on the subframe id (subframes 4 and 5
read nothing further). The final read cursor is returned alongside the
subframe. -/
def decodeFields (data : List Bool) : Except DecodeError (Subframe × ℕ) := do
  let (telemetry, c) ← decode_telemetry data 0
  let (handover, c) ← decode_handover data c
  match handover.subframe_id with
  | 1 => decode_subframe_1 data c telemetry handover
  | 2 => decode_subframe_2 data c telemetry handover
  | 3 => decode_subframe_3 data c telemetry handover
  | 4 => .ok (⟨telemetry, handover, .sf4⟩, c)
  | 5 => .ok (⟨telemetry, handover, .sf5⟩, c)
  | _ => .error .invalidSubframeId

/-! ## BitIntegrator (`bit_integrator.py`) -/

/-- `constants.BITS_PER_SUBFRAME`. -/
def BITS_PER_SUBFRAME : ℕ := 300

/-- `bit_integrator._BITS_REQUIRED_TO_DETERMINE_BIT_PHASE`:
`(PREAMBLES_REQUIRED_TO_DETERMINE_BIT_PHASE + 1) * BITS_PER_SUBFRAME` with
`PREAMBLES_REQUIRED_TO_DETERMINE_BIT_PHASE = 3`. -/
def BITS_REQUIRED_TO_DETERMINE_BIT_PHASE : ℕ := (3 + 1) * BITS_PER_SUBFRAME

/-- `bit_integrator._TLM_PREAMBLE` as `UnresolvedBit`s. -/
def TLM_PREAMBLE : List ℤ := [1, -1, -1, -1, 1, -1, 1, 1]

/-- `bit_integrator._INVERSE_TLM_PREAMBLE`. -/
def INVERSE_TLM_PREAMBLE : List ℤ := [-1, 1, 1, 1, -1, 1, -1, -1]

/-- `BitIntegrator._all_subframes_start_with_preamble`: whether every
complete 300-bit subframe within `unresolved_bits` (starting at index 0)
begins with `preamble`. The iteration count mirrors
`range(0, len - 299, 300)`. -/
def all_subframes_start_with_preamble (preamble unresolved_bits : List ℤ) :
    Bool :=
(List.range ((unresolved_bits.length - (BITS_PER_SUBFRAME - 1) + 299) / 300)).all
  fun t =>
    (unresolved_bits.drop (300 * t)).take preamble.length == preamble

/-- `BitIntegrator._determine_bit_phase`: scan offsets `0..299`; at the
first offset where every subframe starts with the TLM preamble the bit
phase is `+1`, at the first offset where every subframe starts with the
inverted preamble it is `-1`. Returns the phase and the offset (the source
stores the phase and deletes the first `offset` buffered bits); `none`
models a raised `UnknownBitPhaseError`. -/
def determine_bit_phase (unresolved_bits : List ℤ) : Option (ℤ × ℕ) :=
(List.range BITS_PER_SUBFRAME).findSome? fun offset =>
  let bits := unresolved_bits.drop offset
  if all_subframes_start_with_preamble TLM_PREAMBLE bits then
    some (1, offset)
  else if all_subframes_start_with_preamble INVERSE_TLM_PREAMBLE bits then
    some (-1, offset)
  else none

/-- `BitIntegrator._resolve_bit`: maps an `UnresolvedBit` to a `Bit` using
the determined phase. -/
def resolve_bit (bit_phase unresolved_bit : ℤ) : Bool :=
if bit_phase = -1 then (if unresolved_bit = -1 then true else false)
else (if unresolved_bit = -1 then false else true)

/-- The state of a `BitIntegrator`, with the subframes handed to the
`SubframeDecoder` accumulated in `emitted`. -/
structure BitIntegratorState where
  bit_phase : Option ℤ
  unresolved_bits : List ℤ
  emitted : List (List Bool)
deriving DecidableEq

/-- The `while` loop of `BitIntegrator.handle_unresolved_bit`: as long as at
least 300 bits are buffered (and the phase is known), resolve the first 300
into a subframe. `fuel` bounds the recursion; each iteration consumes 300
bits, so `length / 300 + 1` suffices. Returns the emitted subframes and the
remaining buffer. -/
def emitSubframesFuel (bit_phase : ℤ) : ℕ → List ℤ →
    List (List Bool) × List ℤ
| 0, bits => ([], bits)
| fuel + 1, bits =>
  if BITS_PER_SUBFRAME ≤ bits.length then
    let rest := emitSubframesFuel bit_phase fuel (bits.drop BITS_PER_SUBFRAME)
    ((bits.take BITS_PER_SUBFRAME).map (resolve_bit bit_phase) :: rest.1,
      rest.2)
  else ([], bits)

/-- The subframe-emission loop, with enough fuel to drain the buffer. -/
def emitSubframes (bit_phase : ℤ) (bits : List ℤ) :
    List (List Bool) × List ℤ :=
emitSubframesFuel bit_phase (bits.length / 300 + 1) bits

/-- `BitIntegrator.handle_unresolved_bit`: buffer the bit; once 1200 bits
have accumulated and the phase is unknown, determine it (dropping the
leading partial subframe); then emit complete subframes. `none` models a
raised `UnknownBitPhaseError`. -/
def handle_unresolved_bit (s : BitIntegratorState) (unresolved_bit : ℤ) :
    Option BitIntegratorState :=
  let bits := s.unresolved_bits ++ [unresolved_bit]
  match s.bit_phase with
  | none =>
    if BITS_REQUIRED_TO_DETERMINE_BIT_PHASE ≤ bits.length then
      match determine_bit_phase bits with
      | none => none
      | some (phase, offset) =>
        let eo := emitSubframes phase (bits.drop offset)
        some ⟨some phase, eo.2, s.emitted ++ eo.1⟩
    else some ⟨none, bits, s.emitted⟩
  | some phase =>
    let eo := emitSubframes phase bits
    some ⟨some phase, eo.2, s.emitted ++ eo.1⟩

/-- A whole run of a `BitIntegrator` over a sequence of `UnresolvedBit`s,
starting from the freshly constructed state. -/
def runBitIntegrator (inputs : List ℤ) : Option BitIntegratorState :=
inputs.foldlM handle_unresolved_bit ⟨none, [], []⟩

/-! ## Receiver (`receiver.py`) -/

/-- What one `Pipeline.handle_1ms_of_samples` call does this millisecond, as
seen by the `Receiver`'s exception handling: it returns normally, raises
`ParityError`, raises `UnknownBitPhaseError`, or raises `InvariantError`
(the class raised by failed `invariant(...)` checks such as an invalid TLM
preamble or an invalid subframe id). -/
inductive PipelineOutcome where
| ok
| parityError
| unknownBitPhase
| invariantError
deriving DecidableEq, Repr

/-- The exception class raised by `_SubframeDecoder` for each field-parsing
failure: all three are `invariant(...)` checks, so all raise
`InvariantError` (not `ParityError`). -/
def outcomeOfDecodeError : DecodeError → PipelineOutcome
| .pastEnd => .invariantError
| .invalidPreamble => .invariantError
| .invalidSubframeId => .invariantError

/-- The outcome of `SubframeDecoder.handle_bits` on one 300-bit subframe
candidate: a parity failure in `_decode_subframe_data` raises `ParityError`;
a field-parsing failure raises `InvariantError`; otherwise it returns
normally. -/
def outcomeOfSubframeBits (bits : List Bool) : PipelineOutcome :=
match decode_subframe_data bits with
| none => .parityError
| some data =>
  match decodeFields data with
  | .error e => outcomeOfDecodeError e
  | .ok _ => .ok

/-- `world.World.drop_satellite`: removes the satellite's pending and full
parameters (whichever are present). -/
def World.drop_satellite (w : World) (satellite_id : ℕ) : World :=
⟨w.pending_satellite_parameters.filter (fun p => p.1 != satellite_id),
 w.satellite_parameters.filter (fun p => p.1 != satellite_id)⟩

/-- The `Receiver` state relevant to pipeline error handling: the pipelines
keyed by satellite id — each abstracted to the outcome its
`handle_1ms_of_samples` call has this millisecond — and the `World`. -/
structure Receiver where
  pipelines : List (ℕ × PipelineOutcome)
  world : World

/-- `Receiver._drop_satellite`: deletes the satellite's pipeline and removes
it from the world model. -/
def Receiver.drop_satellite (r : Receiver) (satellite_id : ℕ) : Receiver :=
⟨r.pipelines.filter (fun p => p.1 != satellite_id),
 r.world.drop_satellite satellite_id⟩

/-- The pipeline loop of `Receiver.handle_1ms_of_samples`: each pipeline in
the snapshot list is fed the samples; `ParityError` and
`UnknownBitPhaseError` are caught and the satellite is dropped; any other
exception (`InvariantError` included) is not caught and propagates out of
`handle_1ms_of_samples`, modelled as `Except.error ()`. -/
def processPipelines : Receiver → List (ℕ × PipelineOutcome) →
    Except Unit Receiver
| r, [] => .ok r
| r, (satellite_id, outcome) :: rest =>
  match outcome with
  | .ok => processPipelines r rest
  | .parityError => processPipelines (r.drop_satellite satellite_id) rest
  | .unknownBitPhase => processPipelines (r.drop_satellite satellite_id) rest
  | .invariantError => .error ()

/-- The pipeline-processing phase of `Receiver.handle_1ms_of_samples`,
iterating over a snapshot of the current pipelines. -/
def Receiver.handle_pipelines (r : Receiver) : Except Unit Receiver :=
processPipelines r r.pipelines

/-- The satellite ids dropped during one pipeline loop: those whose
pipelines raised `ParityError` or `UnknownBitPhaseError`. -/
def erroredSatelliteIds (pipelines : List (ℕ × PipelineOutcome)) : List ℕ :=
(pipelines.filter
  (fun p => p.2 == PipelineOutcome.parityError
    || p.2 == PipelineOutcome.unknownBitPhase)).map Prod.fst

/-! ## Concrete example values used to instantiate theorems -/

/-- A concrete `SatelliteParameters` record (healthy: `sv_health` starts
with 0). -/
def spExample : SatelliteParameters :=
⟨0, 0, 0, 0, 0, 0, 0, 0, 0, 0, 0, 0, 0, 0, 0, 0, 0, 0, 5, 0,
 [false, false, false, false, false, false], 0, 0, 0, 7⟩

/-- A concrete subframe 4. -/
def sfExample : Subframe :=
⟨⟨false⟩, ⟨[true, false], false, false, 4⟩, .sf4⟩

/-- A concrete subframe 1. -/
def sf1Example : Subframe :=
⟨⟨false⟩, ⟨[true], false, false, 1⟩,
 .sf1 ⟨0, [], 0, List.replicate 6 false, [], false, 0, 0, 0, 0, 0⟩⟩

/-- A concrete subframe 2. -/
def sf2Example : Subframe :=
⟨⟨false⟩, ⟨[true], false, false, 2⟩,
 .sf2 ⟨[], 0, 0, 0, 0, 0, 0, 0, 0, false, []⟩⟩

/-- A concrete subframe 3. -/
def sf3Example : Subframe :=
⟨⟨false⟩, ⟨[true], false, false, 3⟩, .sf3 ⟨0, 0, 0, 0, 0, 0, 0, [], 0⟩⟩

/-- A pending-parameters history receiving subframes 1, 2 and 3 and then a
PRN-edge observation with the left side dominant. -/
def pendingOpsExample : List PendingOp :=
[.subframe sf1Example, .subframe sf2Example, .subframe sf3Example,
 .prnsTracked Side.LEFT 0]

/-- A concrete stand-in for `_acquire_satellite_at_frequency_shifts`:
returns the first probed frequency with strength 1. -/
def oracleExample : List ℚ → Acquisition := fun shifts => ⟨shifts.headD 0, 1⟩

/-- A concrete stand-in for `_acquire_satellite_at_frequency_shifts` that
always reports frequency 0 with strength 1. -/
def oracleConst : List ℚ → Acquisition := fun _ => ⟨0, 1⟩

/-- The first iteration of the hierarchical Doppler search run on
`oracleConst`. -/
def searchIterationExample : SearchIteration := ⟨0, 7168, 29, ⟨0, 1⟩⟩

/-- A 300-bit transmitted subframe with correct parity whose 240 data bits
are all zero — its TLM preamble is therefore invalid. -/
def subframeBitsZeros : List Bool :=
encode_subframe (List.replicate 10 (List.replicate 24 false))

/-- A receiver tracking satellites 2 and 3 whose satellite-2 pipeline
decodes `subframeBitsZeros` this millisecond. -/
def receiverExample : Receiver :=
⟨[(2, outcomeOfSubframeBits subframeBitsZeros), (3, PipelineOutcome.ok)],
 ⟨[], [(2, spExample)]⟩⟩

/-- A receiver tracking satellites 2, 3 and 5 whose satellite-3 pipeline
raises `ParityError` this millisecond. -/
def receiverExample2 : Receiver :=
⟨[(2, PipelineOutcome.ok), (3, PipelineOutcome.parityError),
  (5, PipelineOutcome.unknownBitPhase)],
 ⟨[(3, {}), (5, {})], [(2, spExample), (3, spExample)]⟩⟩

/-- The bitwise-negated image of a `BitIntegratorState`: the phase and every
buffered bit are negated, while the emitted (already resolved) subframes are
unchanged. -/
def mirror (s : BitIntegratorState) : BitIntegratorState :=
⟨s.bit_phase.map (fun p => -p), s.unresolved_bits.map (fun u => -u),
 s.emitted⟩

/-- The values a `BitIntegrator`'s state can actually hold: the phase is
unset or ±1, and every buffered `UnresolvedBit` is ±1. -/
def StateOK (s : BitIntegratorState) : Prop :=
(s.bit_phase = none ∨ s.bit_phase = some 1 ∨ s.bit_phase = some (-1)) ∧
∀ u ∈ s.unresolved_bits, u = 1 ∨ u = -1

/-- Four clean 300-bit subframes of `UnresolvedBit`s, each starting with the
TLM preamble and padded with 1s. -/
def unresolvedBitsExample : List ℤ :=
(List.replicate 4 (TLM_PREAMBLE ++ List.replicate 292 1)).flatten

/-- The resolved form of one subframe of `unresolvedBitsExample` under bit
phase +1. -/
def emittedExample : List Bool :=
[true, false, false, false, true, false, true, true] ++ List.replicate 292 true

/-- Ten 24-bit data words used to exercise the subframe parity round
trip. -/
def wordsExample : List (List Bool) :=
List.replicate 10 (List.replicate 12 false ++ List.replicate 12 true)

/-- A 240-bit decoded data layout with a valid TLM preamble and subframe id
4 (bits 43..45 are `100`); all other bits are zero. -/
def dataSf4Example : List Bool :=
[true, false, false, false, true, false, true, true] ++
  List.replicate 35 false ++ [true, false, false] ++ List.replicate 194 false

/-! ## Proofs -/

/-- Invariant of every reachable `PendingSatelliteParameters`: a subframe
slot can only be filled if `tow_count` has been set (every subframe receipt
sets it), and the side and the trailing-edge timestamp are always set
together. -/
def PendingInv (p : PendingSatelliteParameters) : Prop :=
(p.tow_count = none →
  p.subframe_1 = none ∧ p.subframe_2 = none ∧ p.subframe_3 = none) ∧
(p.side.isSome ↔ p.prn_code_trailing_edge_timestamp.isSome)

theorem pendingInv_init : PendingInv {} := by
  constructor <;> simp

theorem pendingInv_apply (p : PendingSatelliteParameters) (op : PendingOp)
    (h : PendingInv p) : PendingInv (applyPendingOp p op) := by
  obtain ⟨h1, h2⟩ := h
  cases op with
  | prnsTracked side ts =>
    exact ⟨fun ht => h1 ht, by simp [applyPendingOp]⟩
  | subframe sf =>
    cases hb : sf.body <;>
      simp [applyPendingOp, PendingSatelliteParameters.handle_subframe, hb,
        PendingInv, h2]

theorem pendingInv_run (ops : List PendingOp) :
    PendingInv (runPendingOps ops) := by
  have h : ∀ p, PendingInv p → PendingInv (ops.foldl applyPendingOp p) := by
    induction ops with
    | nil => exact fun p h => h
    | cons op rest ih => exact fun p h => ih _ (pendingInv_apply p op h)
  exact h _ pendingInv_init

theorem to_satellite_parameters_isSome (p : PendingSatelliteParameters) :
    p.to_satellite_parameters.isSome ↔
      p.prn_code_trailing_edge_timestamp.isSome ∧ p.side.isSome ∧
      p.subframe_1.isSome ∧ p.subframe_2.isSome ∧ p.subframe_3.isSome ∧
      p.tow_count.isSome := by
  rcases hts : p.prn_code_trailing_edge_timestamp <;>
  rcases hside : p.side <;>
  rcases h1 : p.subframe_1 <;>
  rcases h2 : p.subframe_2 <;>
  rcases h3 : p.subframe_3 <;>
  rcases htow : p.tow_count <;>
    simp [PendingSatelliteParameters.to_satellite_parameters, hts, hside,
      h1, h2, h3, htow]

/-- C2: a `PendingSatelliteParameters` built up by any sequence of
subframe receipts and PRN-edge observations promotes to a full
`SatelliteParameters` exactly when subframes 1, 2 and 3 are all present and
at least one PRN-edge observation (side plus trailing-edge timestamp) has
been recorded, and at promotion the initial `prn_count` is -1 when the
recorded side is `RIGHT` and 0 otherwise (so 0 when it is `LEFT`). -/
theorem promotion_iff_subframes_and_edge (ops : List PendingOp) :
    ((runPendingOps ops).to_satellite_parameters.isSome ↔
      ((runPendingOps ops).subframe_1.isSome ∧
       (runPendingOps ops).subframe_2.isSome ∧
       (runPendingOps ops).subframe_3.isSome ∧
       (runPendingOps ops).side.isSome)) ∧
    (∀ sp, (runPendingOps ops).to_satellite_parameters = some sp →
      sp.prn_count =
        if (runPendingOps ops).side = some Side.RIGHT then -1 else 0) := by
  obtain ⟨hinv1, hinv2⟩ := pendingInv_run ops
  constructor
  · rw [to_satellite_parameters_isSome]
    constructor
    · rintro ⟨-, hside, h1, h2, h3, -⟩
      exact ⟨h1, h2, h3, hside⟩
    · rintro ⟨h1, h2, h3, hside⟩
      refine ⟨hinv2.mp hside, hside, h1, h2, h3, ?_⟩
      rcases htow : (runPendingOps ops).tow_count with _ | tow
      · exact absurd (hinv1 htow).1 (by simp [Option.isSome_iff_exists] at h1 ⊢; rcases h1 with ⟨a, ha⟩; simp [ha])
      · simp
  · intro sp hsp
    rcases hts : (runPendingOps ops).prn_code_trailing_edge_timestamp with _ | ts <;>
    rcases hside : (runPendingOps ops).side with _ | side <;>
    rcases h1 : (runPendingOps ops).subframe_1 with _ | s1 <;>
    rcases h2 : (runPendingOps ops).subframe_2 with _ | s2 <;>
    rcases h3 : (runPendingOps ops).subframe_3 with _ | s3 <;>
    rcases htow : (runPendingOps ops).tow_count with _ | tow <;>
      simp [PendingSatelliteParameters.to_satellite_parameters, hts, hside,
        h1, h2, h3, htow] at hsp
    all_goals simp [← hsp]

theorem promotion_iff_subframes_and_edge_witness :
    ((runPendingOps pendingOpsExample).to_satellite_parameters.isSome ↔
      ((runPendingOps pendingOpsExample).subframe_1.isSome ∧
       (runPendingOps pendingOpsExample).subframe_2.isSome ∧
       (runPendingOps pendingOpsExample).subframe_3.isSome ∧
       (runPendingOps pendingOpsExample).side.isSome)) ∧
    ((runPendingOps pendingOpsExample).to_satellite_parameters.get
        (by decide)).prn_count = 0 := by
  have h := promotion_iff_subframes_and_edge pendingOpsExample
  refine ⟨h.1, ?_⟩
  have h2 := h.2 ((runPendingOps pendingOpsExample).to_satellite_parameters.get
      (by decide)) (Option.some_get _).symm
  rw [h2]
  decide

/-- C3: on a subframe received while full `SatelliteParameters` exist,
`handle_subframe` sets `tow_count` to the integer parsed from the 17
TOW-count MSBs and decreases `prn_count` by exactly 6000, for every
subframe; and for subframes 4 and 5 every other field is left unchanged. -/
theorem handle_subframe_updates (sp : SatelliteParameters) (sf : Subframe) :
    (sp.handle_subframe sf).tow_count
        = parse_int_from_bits sf.handover.tow_count_msbs ∧
    (sp.handle_subframe sf).prn_count = sp.prn_count - 6000 ∧
    (sf.body = SubframeBody.sf4 ∨ sf.body = SubframeBody.sf5 →
      sp.handle_subframe sf = { sp with
        prn_count := sp.prn_count - 6000,
        tow_count := parse_int_from_bits sf.handover.tow_count_msbs }) := by
  refine ⟨?_, ?_, ?_⟩ <;> cases h : sf.body <;>
    simp [SatelliteParameters.handle_subframe, h]

theorem handle_subframe_updates_witness :
    (spExample.handle_subframe sfExample).tow_count
        = parse_int_from_bits sfExample.handover.tow_count_msbs ∧
    (spExample.handle_subframe sfExample).prn_count
        = spExample.prn_count - 6000 ∧
    spExample.handle_subframe sfExample = { spExample with
      prn_count := spExample.prn_count - 6000,
      tow_count := parse_int_from_bits sfExample.handover.tow_count_msbs } :=
⟨(handle_subframe_updates spExample sfExample).1,
 (handle_subframe_updates spExample sfExample).2.1,
 (handle_subframe_updates spExample sfExample).2.2 (Or.inl rfl)⟩

/-- C6: on every Tracker step, the PRN count forwarded to the `World` and
the stored side obey: no wrap of the updated code phase shift (i.e. it
stayed in `[0, 2046)`) forwards count 1 and leaves the side unchanged
(whatever the phase values, midpoint crossings included); a wrap below 0
(LEFT) forwards count 2 and latches the side LEFT; a wrap at or above 2046
(RIGHT) forwards count 0 and latches the side RIGHT. -/
theorem track_prn_code_phase_shift_eq (prev discriminator cfs : ℚ) :
    track_prn_code_phase_shift prev discriminator cfs =
      if prn_code_phase_shift_update prev discriminator cfs < 0 then
        (prn_code_phase_shift_update prev discriminator cfs + PRN_CODE_LENGTH,
          some Side.LEFT)
      else if PRN_CODE_LENGTH ≤ prn_code_phase_shift_update prev discriminator cfs
      then
        (prn_code_phase_shift_update prev discriminator cfs - PRN_CODE_LENGTH,
          some Side.RIGHT)
      else (prn_code_phase_shift_update prev discriminator cfs, none) := rfl

theorem tracker_prn_count_and_side (prev discriminator cfs : ℚ) (side : Side) :
    ((track_prn_code_phase_shift prev discriminator cfs).2 = none ↔
      0 ≤ prn_code_phase_shift_update prev discriminator cfs ∧
      prn_code_phase_shift_update prev discriminator cfs < PRN_CODE_LENGTH) ∧
    ((track_prn_code_phase_shift prev discriminator cfs).2 = some Side.LEFT ↔
      prn_code_phase_shift_update prev discriminator cfs < 0) ∧
    ((track_prn_code_phase_shift prev discriminator cfs).2 = some Side.RIGHT ↔
      PRN_CODE_LENGTH ≤ prn_code_phase_shift_update prev discriminator cfs) ∧
    ((track_prn_code_phase_shift prev discriminator cfs).2 = none →
      prnCountAndSide (track_prn_code_phase_shift prev discriminator cfs).2
        side = (1, side)) ∧
    prnCountAndSide (some Side.LEFT) side = (2, Side.LEFT) ∧
    prnCountAndSide (some Side.RIGHT) side = (0, Side.RIGHT) := by
  have hP : (0 : ℚ) < PRN_CODE_LENGTH := by norm_num [PRN_CODE_LENGTH]
  rw [track_prn_code_phase_shift_eq prev discriminator cfs]
  rcases lt_trichotomy (prn_code_phase_shift_update prev discriminator cfs) 0
    with hneg | hzero | hpos
  · rw [if_pos hneg]
    refine ⟨by simp; intro h; linarith, by simp [hneg], by simp; linarith,
      by simp, rfl, rfl⟩
  · rw [if_neg (by rw [hzero]; exact lt_irrefl 0),
      if_neg (by rw [hzero]; norm_num [PRN_CODE_LENGTH])]
    refine ⟨by simp [hzero]; norm_num [PRN_CODE_LENGTH], by simp [hzero],
      by simp [hzero]; norm_num [PRN_CODE_LENGTH], by simp [prnCountAndSide],
      rfl, rfl⟩
  · rw [if_neg (by linarith)]
    by_cases hbig : PRN_CODE_LENGTH ≤ prn_code_phase_shift_update prev
        discriminator cfs
    · rw [if_pos hbig]
      refine ⟨by simp; intro h; linarith, by simp; linarith, by simp [hbig],
        by simp, rfl, rfl⟩
    · rw [if_neg hbig]
      refine ⟨by simp; constructor <;> linarith, by simp; linarith,
        by simp; exact not_le.mp hbig, by simp [prnCountAndSide], rfl, rfl⟩

theorem tracker_prn_count_and_side_witness :
    ((track_prn_code_phase_shift 100 0 0).2 = none ↔
      0 ≤ prn_code_phase_shift_update 100 0 0 ∧
      prn_code_phase_shift_update 100 0 0 < PRN_CODE_LENGTH) ∧
    prnCountAndSide (track_prn_code_phase_shift 100 0 0).2 Side.RIGHT
      = (1, Side.RIGHT) := by
  have h := tracker_prn_count_and_side 100 0 0 Side.RIGHT
  refine ⟨h.1, h.2.2.2.1 ?_⟩
  rw [track_prn_code_phase_shift_eq]
  rw [if_neg (by norm_num [prn_code_phase_shift_update, PRN_CODE_LENGTH,
    L1_FREQUENCY, PRN_CODE_PHASE_SHIFT_TRACKING_LOOP_GAIN]),
    if_neg (by norm_num [prn_code_phase_shift_update, PRN_CODE_LENGTH,
    L1_FREQUENCY, PRN_CODE_PHASE_SHIFT_TRACKING_LOOP_GAIN])]

/-- C7 (amended): each Tracker step keeps the most recent PRN code phase
shift estimate inside `[0, 2046)` provided the step's total adjustment (the
gain-scaled discriminator plus the Doppler stretching term) has magnitude at
most one code length (2046 half-chips); the single conditional
addition/subtraction of 2046 cannot recover from a larger excursion. -/
theorem tracker_phase_shift_in_range (prev discriminator cfs : ℚ)
    (h0 : 0 ≤ prev) (h1 : prev < PRN_CODE_LENGTH)
    (hadj : |discriminator * PRN_CODE_PHASE_SHIFT_TRACKING_LOOP_GAIN
      + PRN_CODE_LENGTH * cfs / L1_FREQUENCY| ≤ PRN_CODE_LENGTH) :
    0 ≤ (track_prn_code_phase_shift prev discriminator cfs).1 ∧
    (track_prn_code_phase_shift prev discriminator cfs).1 < PRN_CODE_LENGTH := by
  rw [abs_le] at hadj
  obtain ⟨ha1, ha2⟩ := hadj
  have hP : (0 : ℚ) < PRN_CODE_LENGTH := by norm_num [PRN_CODE_LENGTH]
  have hu : prn_code_phase_shift_update prev discriminator cfs
      = prev - (discriminator * PRN_CODE_PHASE_SHIFT_TRACKING_LOOP_GAIN
        + PRN_CODE_LENGTH * cfs / L1_FREQUENCY) := by
    simp only [prn_code_phase_shift_update]
    ring
  rw [track_prn_code_phase_shift_eq]
  split_ifs with hneg hbig <;> dsimp only <;> rw [hu] at hneg ⊢ <;>
    try rw [hu] at hbig
  all_goals constructor <;> linarith

theorem tracker_phase_shift_in_range_witness :
    (0 ≤ (100 : ℚ) ∧ (100 : ℚ) < PRN_CODE_LENGTH ∧
      |(0 : ℚ) * PRN_CODE_PHASE_SHIFT_TRACKING_LOOP_GAIN
        + PRN_CODE_LENGTH * 0 / L1_FREQUENCY| ≤ PRN_CODE_LENGTH) ∧
    (0 ≤ (track_prn_code_phase_shift 100 0 0).1 ∧
      (track_prn_code_phase_shift 100 0 0).1 < PRN_CODE_LENGTH) :=
⟨by constructor; · decide
    constructor; · decide
    · rw [abs_le]; constructor <;> norm_num [PRN_CODE_LENGTH, L1_FREQUENCY,
        PRN_CODE_PHASE_SHIFT_TRACKING_LOOP_GAIN],
 tracker_phase_shift_in_range 100 0 0 (by decide) (by decide)
    (by rw [abs_le]; constructor <;> norm_num [PRN_CODE_LENGTH, L1_FREQUENCY,
      PRN_CODE_PHASE_SHIFT_TRACKING_LOOP_GAIN])⟩

/-- C7 counterexample: a step taking the in-range shift 0 with a large
discriminator (2500000, giving an update of -5000 half-chips) appends the
out-of-range value -2954: a single addition of 2046 does not wrap it back
into `[0, 2046)`. -/
theorem tracker_phase_shift_escapes_range :
    (0 ≤ (0 : ℚ) ∧ (0 : ℚ) < PRN_CODE_LENGTH) ∧
    (track_prn_code_phase_shift 0 2500000 0).1 = -2954 ∧
    ¬ (0 ≤ (track_prn_code_phase_shift 0 2500000 0).1 ∧
       (track_prn_code_phase_shift 0 2500000 0).1 < PRN_CODE_LENGTH) := by
  refine ⟨by decide, ?_, ?_⟩ <;>
    norm_num [track_prn_code_phase_shift, prn_code_phase_shift_update,
      PRN_CODE_LENGTH, L1_FREQUENCY, PRN_CODE_PHASE_SHIFT_TRACKING_LOOP_GAIN]

/-- C9: `World.compute_solution` returns no fix whenever fewer than four
satellites both have promoted `SatelliteParameters` and are healthy (first
`sv_health` bit 0); pending (unpromoted) satellites are never counted: the
result is independent of the pending map. -/
theorem compute_solution_needs_four (gaussNewton : List ℕ → EcefSolution)
    (w : World) (h : w.usableSatelliteIds.length < 4) :
    w.compute_solution gaussNewton = none ∧
    ∀ pending',
      (World.mk pending' w.satellite_parameters).compute_solution gaussNewton
        = w.compute_solution gaussNewton := by
  constructor
  · simp [World.compute_solution, h]
  · intro pending'
    simp [World.compute_solution, World.usableSatelliteIds]

theorem linspace_length (lo hi : ℚ) (n : ℕ) : (linspace lo hi n).length = n := by
  rw [linspace, List.length_map, List.length_range]

theorem hierarchicalSearch_halves (oracle : List ℚ → Acquisition)
    (num_shifts : ℕ) (threshold : ℚ) :
    ∀ (fuel : ℕ) (best : Option Acquisition) (centre half : ℚ),
      (hierarchicalSearch oracle num_shifts threshold fuel best centre
        half).1.map SearchIteration.half_range
        = halfRangeSeq threshold fuel half := by
  intro fuel
  induction fuel with
  | zero => intro best centre half; rfl
  | succ n ih =>
    intro best centre half
    by_cases h : threshold ≤ half <;>
      simp [hierarchicalSearch, halfRangeSeq, h, ih]

theorem hierarchicalSearch_counts (oracle : List ℚ → Acquisition)
    (num_shifts : ℕ) (threshold : ℚ) :
    ∀ (fuel : ℕ) (best : Option Acquisition) (centre half : ℚ)
      (it : SearchIteration),
      it ∈ (hierarchicalSearch oracle num_shifts threshold fuel best centre
        half).1 →
      it.shift_count = num_shifts := by
  intro fuel
  induction fuel with
  | zero => intro best centre half it h; simp [hierarchicalSearch] at h
  | succ n ih =>
    intro best centre half it h
    by_cases hc : threshold ≤ half
    · simp only [hierarchicalSearch, if_pos hc, List.mem_cons] at h
      rcases h with h | h
      · subst h; simp [linspace_length]
      · exact ih _ _ _ _ h
    · simp [hierarchicalSearch, hc] at h

theorem hierarchicalSearch_head (oracle : List ℚ → Acquisition)
    (num_shifts : ℕ) (threshold : ℚ) (fuel : ℕ) (best : Option Acquisition)
    (centre half : ℚ) (it : SearchIteration)
    (h : (hierarchicalSearch oracle num_shifts threshold fuel best centre
      half).1.head? = some it) :
    it.centre = centre ∧ it.half_range = half := by
  cases fuel with
  | zero => simp [hierarchicalSearch] at h
  | succ n =>
    by_cases hc : threshold ≤ half
    · simp [hierarchicalSearch, hc] at h
      cases h
      exact ⟨rfl, rfl⟩
    · simp [hierarchicalSearch, hc] at h

theorem hierarchicalSearch_chain (oracle : List ℚ → Acquisition)
    (num_shifts : ℕ) (threshold : ℚ) :
    ∀ (fuel : ℕ) (best : Option Acquisition) (centre half : ℚ),
      ((hierarchicalSearch oracle num_shifts threshold fuel best centre
        half).1).Chain' (fun a b =>
          b.centre = a.best_after.carrier_frequency_shift ∧
          b.half_range = a.half_range / 2) := by
  intro fuel
  induction fuel with
  | zero => intro best centre half; simp [hierarchicalSearch]
  | succ n ih =>
    intro best centre half
    by_cases hc : threshold ≤ half
    · simp only [hierarchicalSearch, if_pos hc]
      rw [List.chain'_cons']
      constructor
      · intro b hb
        rw [Option.mem_def] at hb
        have hh := hierarchicalSearch_head oracle num_shifts threshold n _ _ _
          b hb
        exact ⟨hh.1, hh.2⟩
      · exact ih _ _ _
    · simp [hierarchicalSearch, hc]

theorem hierarchicalSearch_nil (oracle : List ℚ → Acquisition)
    (num_shifts : ℕ) (threshold : ℚ) :
    ∀ (fuel : ℕ) (half : ℚ), halfRangeSeq threshold fuel half = [] →
      ∀ (best : Option Acquisition) (centre : ℚ),
      hierarchicalSearch oracle num_shifts threshold fuel best centre half
        = ([], best) := by
  intro fuel
  cases fuel with
  | zero => intro half _ best centre; rfl
  | succ n =>
    intro half h best centre
    by_cases hc : threshold ≤ half
    · simp [halfRangeSeq, hc] at h
    · simp [hierarchicalSearch, hc]

theorem hierarchicalSearch_fuel_congr (oracle : List ℚ → Acquisition)
    (num_shifts : ℕ) (threshold : ℚ) :
    ∀ (f1 f2 : ℕ) (best : Option Acquisition) (centre half : ℚ),
      halfRangeSeq threshold f1 half = halfRangeSeq threshold f2 half →
      hierarchicalSearch oracle num_shifts threshold f1 best centre half
        = hierarchicalSearch oracle num_shifts threshold f2 best centre half := by
  intro f1
  induction f1 with
  | zero =>
    intro f2 best centre half h
    exact (hierarchicalSearch_nil oracle num_shifts threshold f2 half
      (h.symm.trans rfl) best centre).symm
  | succ n ih =>
    intro f2 best centre half h
    cases f2 with
    | zero =>
      exact hierarchicalSearch_nil oracle num_shifts threshold (n + 1) half
        (h.trans rfl) best centre
    | succ m =>
      by_cases hc : threshold ≤ half
      · simp only [halfRangeSeq, if_pos hc, List.cons.injEq, true_and] at h
        simp only [hierarchicalSearch, if_pos hc]
        rw [ih m _ _ _ h]
      · simp only [hierarchicalSearch, if_neg hc]

/-- C5 (amended): an acquisition attempt through the flat-layout
`Acquirer._acquire_satellite` starts centred at 0 with half-range 7168 Hz,
evaluates 29 linearly spaced shifts per iteration, recentres on the
strongest candidate seen so far and halves the half-range each iteration,
and stops as soon as the half-range is below 14 Hz — 10 iterations with
half-ranges 7168 down to 14 (extra loop fuel does not change the result).
An attempt through the packaged-layout `_acquire_satellite` instead starts
with half-range 7680 Hz, evaluates 31 shifts, and stops below 15 Hz (also 10
iterations), with the same recentring and halving. -/
theorem acquire_satellite_search_schedule (oracle : List ℚ → Acquisition) :
    ((acquire_satellite_search oracle).1.map SearchIteration.half_range
      = [7168, 3584, 1792, 896, 448, 224, 112, 56, 28, 14]) ∧
    (∀ it, (acquire_satellite_search oracle).1.head? = some it →
      it.centre = 0) ∧
    (∀ it ∈ (acquire_satellite_search oracle).1, it.shift_count = 29) ∧
    ((acquire_satellite_search oracle).1.Chain' (fun a b =>
      b.centre = a.best_after.carrier_frequency_shift ∧
      b.half_range = a.half_range / 2)) ∧
    (acquire_satellite_search oracle
      = hierarchicalSearch oracle 29 14 17 none 0 7168) ∧
    ((acquire_satellite_search_pkg oracle).1.map SearchIteration.half_range
      = [7680, 3840, 1920, 960, 480, 240, 120, 60, 30, 15]) ∧
    (∀ it, (acquire_satellite_search_pkg oracle).1.head? = some it →
      it.centre = 0) ∧
    (∀ it ∈ (acquire_satellite_search_pkg oracle).1, it.shift_count = 31) ∧
    ((acquire_satellite_search_pkg oracle).1.Chain' (fun a b =>
      b.centre = a.best_after.carrier_frequency_shift ∧
      b.half_range = a.half_range / 2)) ∧
    (acquire_satellite_search_pkg oracle
      = hierarchicalSearch oracle 31 15 17 none 0 7680) := by
  refine ⟨?_, ?_, ?_, ?_, ?_, ?_, ?_, ?_, ?_, ?_⟩
  · rw [acquire_satellite_search, hierarchicalSearch_halves]
    norm_num [halfRangeSeq]
  · intro it h
    exact (hierarchicalSearch_head oracle 29 14 16 none 0 7168 it h).1
  · intro it h
    exact hierarchicalSearch_counts oracle 29 14 16 none 0 7168 it h
  · exact hierarchicalSearch_chain oracle 29 14 16 none 0 7168
  · exact hierarchicalSearch_fuel_congr oracle 29 14 16 17 none 0 7168
      (by norm_num [halfRangeSeq])
  · rw [acquire_satellite_search_pkg, hierarchicalSearch_halves]
    norm_num [halfRangeSeq]
  · intro it h
    exact (hierarchicalSearch_head oracle 31 15 16 none 0 7680 it h).1
  · intro it h
    exact hierarchicalSearch_counts oracle 31 15 16 none 0 7680 it h
  · exact hierarchicalSearch_chain oracle 31 15 16 none 0 7680
  · exact hierarchicalSearch_fuel_congr oracle 31 15 16 17 none 0 7680
      (by norm_num [halfRangeSeq])

theorem acquire_satellite_search_schedule_witness :
    ((acquire_satellite_search oracleConst).1.map SearchIteration.half_range
      = [7168, 3584, 1792, 896, 448, 224, 112, 56, 28, 14]) ∧
    ((acquire_satellite_search oracleConst).1.head?
      = some searchIterationExample) ∧
    searchIterationExample.centre = 0 ∧
    searchIterationExample.shift_count = 29 := by
  have h := acquire_satellite_search_schedule oracleConst
  have hh : (acquire_satellite_search oracleConst).1.head?
      = some searchIterationExample := by
    norm_num [acquire_satellite_search, hierarchicalSearch, updateBest,
      oracleConst, linspace_length, searchIterationExample]
  exact ⟨h.1, hh, h.2.1 searchIterationExample hh,
    h.2.2.1 searchIterationExample
      (List.mem_of_mem_head? (by rw [Option.mem_def]; exact hh))⟩

/-- C5 counterexample: a concrete acquisition attempt through the
packaged-layout `_acquire_satellite` evaluates its first iteration centred
at 0 with half-range 7680 Hz over 31 shifts — not 7168 Hz over 29 shifts as
the claim states for every attempt. -/
theorem acquire_satellite_search_pkg_differs :
    (acquire_satellite_search_pkg oracleConst).1.head?.map
      (fun it => (it.centre, it.half_range, it.shift_count))
      = some (0, 7680, 31) ∧
    ¬ ((7680 : ℚ) = 7168 ∧ (31 : ℕ) = 29) := by
  constructor
  · norm_num [acquire_satellite_search_pkg, hierarchicalSearch, updateBest,
      oracleConst, linspace_length]
  · rintro ⟨h, -⟩
    norm_num at h

theorem compute_solution_needs_four_witness :
    ((World.mk [] [(2, spExample), (3, spExample), (5, spExample)]).usableSatelliteIds.length < 4) ∧
    (World.mk [] [(2, spExample), (3, spExample), (5, spExample)]).compute_solution
        (fun _ => ⟨0, 0, 0, 0⟩) = none := by
  have h := compute_solution_needs_four (fun _ => ⟨0, 0, 0, 0⟩)
    (World.mk [] [(2, spExample), (3, spExample), (5, spExample)]) (by decide)
  exact ⟨by decide, h.1⟩

theorem erroredSatelliteIds_cons_ok (sid : ℕ)
    (tl : List (ℕ × PipelineOutcome)) :
    erroredSatelliteIds ((sid, PipelineOutcome.ok) :: tl)
      = erroredSatelliteIds tl := by
  simp [erroredSatelliteIds]

theorem erroredSatelliteIds_cons_err (sid : ℕ) (o : PipelineOutcome)
    (tl : List (ℕ × PipelineOutcome))
    (h : o = PipelineOutcome.parityError ∨ o = PipelineOutcome.unknownBitPhase) :
    erroredSatelliteIds ((sid, o) :: tl) = sid :: erroredSatelliteIds tl := by
  rcases h with h | h <;> subst h <;> simp [erroredSatelliteIds]

theorem filter_ne_filter_contains {α : Type} (sid : ℕ) (es : List ℕ)
    (l : List (ℕ × α)) :
    (l.filter (fun p => p.1 != sid)).filter (fun p => !(es.contains p.1))
      = l.filter (fun p => !((sid :: es).contains p.1)) := by
  rw [List.filter_filter]
  apply List.filter_congr
  intro p _
  cases h : p.1 == sid
  · have hne : p.1 ≠ sid := by simpa using h
    simp [List.contains_cons, bne, h, hne]
  · have heq : p.1 = sid := by simpa using h
    simp [List.contains_cons, bne, h, heq]

theorem processPipelines_ok :
    ∀ (wl : List (ℕ × PipelineOutcome)) (r : Receiver),
      (∀ p ∈ wl, p.2 ≠ PipelineOutcome.invariantError) →
      processPipelines r wl = Except.ok
        ⟨r.pipelines.filter (fun p => !(erroredSatelliteIds wl).contains p.1),
         ⟨r.world.pending_satellite_parameters.filter
            (fun p => !(erroredSatelliteIds wl).contains p.1),
          r.world.satellite_parameters.filter
            (fun p => !(erroredSatelliteIds wl).contains p.1)⟩⟩ := by
  intro wl
  induction wl with
  | nil =>
    intro r h
    simp [processPipelines, erroredSatelliteIds]
  | cons hd tl ih =>
    intro r h
    have h' : ∀ p ∈ tl, p.2 ≠ PipelineOutcome.invariantError :=
      fun p hp => h p (List.mem_cons_of_mem _ hp)
    obtain ⟨sid, outcome⟩ := hd
    cases outcome with
    | ok =>
      rw [show processPipelines r ((sid, PipelineOutcome.ok) :: tl)
          = processPipelines r tl from rfl,
        ih r h', erroredSatelliteIds_cons_ok]
    | parityError =>
      rw [show processPipelines r ((sid, PipelineOutcome.parityError) :: tl)
          = processPipelines (r.drop_satellite sid) tl from rfl,
        ih (r.drop_satellite sid) h',
        erroredSatelliteIds_cons_err sid _ tl (Or.inl rfl)]
      simp only [Receiver.drop_satellite, World.drop_satellite]
      rw [filter_ne_filter_contains, filter_ne_filter_contains,
        filter_ne_filter_contains]
    | unknownBitPhase =>
      rw [show processPipelines r ((sid, PipelineOutcome.unknownBitPhase) :: tl)
          = processPipelines (r.drop_satellite sid) tl from rfl,
        ih (r.drop_satellite sid) h',
        erroredSatelliteIds_cons_err sid _ tl (Or.inr rfl)]
      simp only [Receiver.drop_satellite, World.drop_satellite]
      rw [filter_ne_filter_contains, filter_ne_filter_contains,
        filter_ne_filter_contains]
    | invariantError =>
      exact absurd rfl (h (sid, PipelineOutcome.invariantError)
        (List.mem_cons_self _ _))

/-- C1 (amended): during one per-ms step, the `Receiver` catches
`ParityError` (raised on a parity check failure) and
`UnknownBitPhaseError` (raised when the bit phase cannot be determined)
from each pipeline, dropping exactly the satellites whose pipelines raised
them — their pipelines and both their pending and full world parameters are
removed in the same step — while every other pipeline is still processed
and retained, provided no pipeline raises `InvariantError`. An invalid TLM
preamble or invalid subframe id raises `InvariantError`, which the
`Receiver` does not catch: the step aborts instead of dropping the
satellite (see the counterexample). -/
theorem receiver_drops_on_caught_errors (r : Receiver)
    (h : ∀ p ∈ r.pipelines, p.2 ≠ PipelineOutcome.invariantError) :
    r.handle_pipelines = Except.ok
      ⟨r.pipelines.filter
          (fun p => !(erroredSatelliteIds r.pipelines).contains p.1),
       ⟨r.world.pending_satellite_parameters.filter
          (fun p => !(erroredSatelliteIds r.pipelines).contains p.1),
        r.world.satellite_parameters.filter
          (fun p => !(erroredSatelliteIds r.pipelines).contains p.1)⟩⟩ ∧
    ∀ p ∈ r.pipelines,
      (p.2 = PipelineOutcome.parityError
        ∨ p.2 = PipelineOutcome.unknownBitPhase) →
      p.1 ∈ erroredSatelliteIds r.pipelines := by
  constructor
  · exact processPipelines_ok r.pipelines r h
  · intro p hp ho
    apply List.mem_map.mpr
    refine ⟨p, List.mem_filter.mpr ⟨hp, ?_⟩, rfl⟩
    rcases ho with ho | ho <;> simp [ho]

theorem receiver_drops_on_caught_errors_witness :
    Receiver.handle_pipelines receiverExample2 = Except.ok
      ⟨receiverExample2.pipelines.filter
          (fun p => !(erroredSatelliteIds receiverExample2.pipelines).contains
            p.1),
       ⟨receiverExample2.world.pending_satellite_parameters.filter
          (fun p => !(erroredSatelliteIds receiverExample2.pipelines).contains
            p.1),
        receiverExample2.world.satellite_parameters.filter
          (fun p => !(erroredSatelliteIds receiverExample2.pipelines).contains
            p.1)⟩⟩ ∧
    (3, PipelineOutcome.parityError).1
      ∈ erroredSatelliteIds receiverExample2.pipelines :=
⟨(receiver_drops_on_caught_errors receiverExample2 (by decide)).1,
 (receiver_drops_on_caught_errors receiverExample2 (by decide)).2
    (3, PipelineOutcome.parityError) (by decide) (Or.inl rfl)⟩

/-- C1 counterexample: a subframe whose parity decode succeeds but whose
TLM preamble is invalid makes `SubframeDecoder` raise `InvariantError`, not
`ParityError`; the `Receiver` does not catch it, so instead of dropping
satellite 2 and continuing with satellite 3, the whole per-ms step aborts
with the propagated exception. -/
theorem receiver_aborts_on_invalid_preamble :
    outcomeOfSubframeBits subframeBitsZeros
      = PipelineOutcome.invariantError ∧
    Receiver.handle_pipelines receiverExample = Except.error () := by
  constructor
  · rfl
  · rfl

theorem parse_int_from_bits_foldl_lt :
    ∀ (bits : List Bool) (acc : ℕ),
      bits.foldl (fun a b => 2 * a + (if b then 1 else 0)) acc
        < (acc + 1) * 2 ^ bits.length := by
  intro bits
  induction bits with
  | nil => intro acc; simp
  | cons b tl ih =>
    intro acc
    have h := ih (2 * acc + (if b then 1 else 0))
    have hb : (if b then (1 : ℕ) else 0) ≤ 1 := by cases b <;> simp
    calc (b :: tl).foldl (fun a b => 2 * a + (if b then 1 else 0)) acc
        = tl.foldl (fun a b => 2 * a + (if b then 1 else 0))
            (2 * acc + (if b then 1 else 0)) := by simp
      _ < (2 * acc + (if b then 1 else 0) + 1) * 2 ^ tl.length := h
      _ ≤ (2 * (acc + 1)) * 2 ^ tl.length := by
          apply Nat.mul_le_mul_right
          omega
      _ = (acc + 1) * 2 ^ (b :: tl).length := by
          simp [List.length_cons, pow_succ]
          ring

theorem parse_int_from_bits_lt (bits : List Bool) :
    parse_int_from_bits bits < 2 ^ bits.length := by
  have h := parse_int_from_bits_foldl_lt bits 0
  simpa [parse_int_from_bits] using h

theorem except_map_snd {ε α β : Type} (e : Except ε (α × β)) (b : β)
    (h : e.map Prod.snd = .ok b) : ∃ a, e = .ok (a, b) := by
  cases e with
  | error err => simp [Except.map] at h
  | ok p =>
    obtain ⟨x, y⟩ := p
    simp [Except.map] at h
    exact ⟨x, by rw [h]⟩

theorem decode_telemetry_ok (data : List Bool) (hlen : data.length = 240)
    (hpre : data.take 8 = [true, false, false, false, true, false, true, true]) :
    decode_telemetry data 0
      = .ok (⟨((data.drop 22).take 1).headD false⟩, 24) := by
  simp [decode_telemetry, get_bits, get_bit, hlen, hpre, Bind.bind, Except.bind]

theorem decode_telemetry_invalid (data : List Bool) (hlen : data.length = 240)
    (hpre : data.take 8 ≠ [true, false, false, false, true, false, true, true]) :
    decode_telemetry data 0 = .error DecodeError.invalidPreamble := by
  simp [decode_telemetry, get_bits, hlen, hpre, Bind.bind, Except.bind]

theorem decode_handover_ok (data : List Bool) (hlen : data.length = 240)
    (hor : parse_int_from_bits ((data.drop 43).take 3) = 1
      ∨ parse_int_from_bits ((data.drop 43).take 3) = 2
      ∨ parse_int_from_bits ((data.drop 43).take 3) = 3
      ∨ parse_int_from_bits ((data.drop 43).take 3) = 4
      ∨ parse_int_from_bits ((data.drop 43).take 3) = 5) :
    decode_handover data 24
      = .ok (⟨(data.drop 24).take 17, ((data.drop 41).take 1).headD false,
          ((data.drop 42).take 1).headD false,
          parse_int_from_bits ((data.drop 43).take 3)⟩, 48) := by
  simp [decode_handover, get_bits, get_bit, get_int, hlen, hor, Bind.bind,
    Except.bind]

theorem decode_handover_invalid (data : List Bool) (hlen : data.length = 240)
    (hnor : ¬(parse_int_from_bits ((data.drop 43).take 3) = 1
      ∨ parse_int_from_bits ((data.drop 43).take 3) = 2
      ∨ parse_int_from_bits ((data.drop 43).take 3) = 3
      ∨ parse_int_from_bits ((data.drop 43).take 3) = 4
      ∨ parse_int_from_bits ((data.drop 43).take 3) = 5)) :
    decode_handover data 24 = .error DecodeError.invalidSubframeId := by
  simp [decode_handover, get_bits, get_bit, get_int, hlen, hnor, Bind.bind,
    Except.bind]

theorem decode_subframe_1_cursor (data : List Bool) (hlen : data.length = 240)
    (telemetry : Telemetry) (handover : Handover) :
    (decode_subframe_1 data 48 telemetry handover).map Prod.snd = .ok 240 := by
  simp [decode_subframe_1, get_bits, get_bit, get_int, get_float, hlen,
    Bind.bind, Except.bind, Except.map]

theorem decode_subframe_2_cursor (data : List Bool) (hlen : data.length = 240)
    (telemetry : Telemetry) (handover : Handover) :
    (decode_subframe_2 data 48 telemetry handover).map Prod.snd = .ok 240 := by
  simp [decode_subframe_2, get_bits, get_bit, get_int, get_float, hlen,
    Bind.bind, Except.bind, Except.map]

theorem decode_subframe_3_cursor (data : List Bool) (hlen : data.length = 240)
    (telemetry : Telemetry) (handover : Handover) :
    (decode_subframe_3 data 48 telemetry handover).map Prod.snd = .ok 240 := by
  simp [decode_subframe_3, get_bits, get_bit, get_int, get_float, hlen,
    Bind.bind, Except.bind, Except.map]

theorem decodeFields_never_pastEnd (data : List Bool)
    (hlen : data.length = 240) :
    decodeFields data ≠ Except.error DecodeError.pastEnd := by
  by_cases hpre :
      data.take 8 = [true, false, false, false, true, false, true, true]
  case neg =>
    have ht := decode_telemetry_invalid data hlen hpre
    simp [decodeFields, ht, Bind.bind, Except.bind]
  case pos =>
    have ht := decode_telemetry_ok data hlen hpre
    by_cases hval : parse_int_from_bits ((data.drop 43).take 3) = 1
      ∨ parse_int_from_bits ((data.drop 43).take 3) = 2
      ∨ parse_int_from_bits ((data.drop 43).take 3) = 3
      ∨ parse_int_from_bits ((data.drop 43).take 3) = 4
      ∨ parse_int_from_bits ((data.drop 43).take 3) = 5
    case neg =>
      have hh := decode_handover_invalid data hlen hval
      simp [decodeFields, ht, hh, Bind.bind, Except.bind]
    case pos =>
      have hh := decode_handover_ok data hlen hval
      rcases hval with h | h | h | h | h
      · obtain ⟨sf, hsf⟩ :=
          except_map_snd _ _ (decode_subframe_1_cursor data hlen
            ⟨((data.drop 22).take 1).headD false⟩
            ⟨(data.drop 24).take 17, ((data.drop 41).take 1).headD false,
              ((data.drop 42).take 1).headD false,
              parse_int_from_bits ((data.drop 43).take 3)⟩)
        simp [h] at hsf
        simp [decodeFields, ht, hh, h, hsf, Bind.bind, Except.bind]
      · obtain ⟨sf, hsf⟩ :=
          except_map_snd _ _ (decode_subframe_2_cursor data hlen
            ⟨((data.drop 22).take 1).headD false⟩
            ⟨(data.drop 24).take 17, ((data.drop 41).take 1).headD false,
              ((data.drop 42).take 1).headD false,
              parse_int_from_bits ((data.drop 43).take 3)⟩)
        simp [h] at hsf
        simp [decodeFields, ht, hh, h, hsf, Bind.bind, Except.bind]
      · obtain ⟨sf, hsf⟩ :=
          except_map_snd _ _ (decode_subframe_3_cursor data hlen
            ⟨((data.drop 22).take 1).headD false⟩
            ⟨(data.drop 24).take 17, ((data.drop 41).take 1).headD false,
              ((data.drop 42).take 1).headD false,
              parse_int_from_bits ((data.drop 43).take 3)⟩)
        simp [h] at hsf
        simp [decodeFields, ht, hh, h, hsf, Bind.bind, Except.bind]
      · simp [decodeFields, ht, hh, h, Bind.bind, Except.bind]
      · simp [decodeFields, ht, hh, h, Bind.bind, Except.bind]

/-- C10 (amended): for every 240-bit decoded data layout whose TLM preamble
and subframe-id checks pass, field parsing succeeds and never reads past the
240 decoded data bits — the "Can't read past end of subframe" branch of
`_get_bits` is unreachable for any 240-bit input. Subframes 1-3 consume
exactly 240 bits; subframes 4 and 5 stop after the 48 TLM/HOW bits (not
240). -/
theorem decodeFields_cursor (data : List Bool) (hlen : data.length = 240)
    (hpre : data.take 8 = [true, false, false, false, true, false, true, true])
    (hid1 : 1 ≤ parse_int_from_bits ((data.drop 43).take 3))
    (hid5 : parse_int_from_bits ((data.drop 43).take 3) ≤ 5) :
    (∃ sf, decodeFields data = .ok (sf,
      if parse_int_from_bits ((data.drop 43).take 3) ≤ 3 then 240 else 48)) ∧
    ∀ d : List Bool, d.length = 240 →
      decodeFields d ≠ Except.error DecodeError.pastEnd := by
  refine ⟨?_, fun d hd => decodeFields_never_pastEnd d hd⟩
  have ht := decode_telemetry_ok data hlen hpre
  have hor : parse_int_from_bits ((data.drop 43).take 3) = 1
      ∨ parse_int_from_bits ((data.drop 43).take 3) = 2
      ∨ parse_int_from_bits ((data.drop 43).take 3) = 3
      ∨ parse_int_from_bits ((data.drop 43).take 3) = 4
      ∨ parse_int_from_bits ((data.drop 43).take 3) = 5 := by omega
  have hh := decode_handover_ok data hlen hor
  rcases hor with h | h | h | h | h
  · obtain ⟨sf, hsf⟩ :=
      except_map_snd _ _ (decode_subframe_1_cursor data hlen
        ⟨((data.drop 22).take 1).headD false⟩
        ⟨(data.drop 24).take 17, ((data.drop 41).take 1).headD false,
          ((data.drop 42).take 1).headD false,
          parse_int_from_bits ((data.drop 43).take 3)⟩)
    simp [h] at hsf
    refine ⟨sf, ?_⟩
    simp [decodeFields, ht, hh, h, hsf, Bind.bind, Except.bind]
  · obtain ⟨sf, hsf⟩ :=
      except_map_snd _ _ (decode_subframe_2_cursor data hlen
        ⟨((data.drop 22).take 1).headD false⟩
        ⟨(data.drop 24).take 17, ((data.drop 41).take 1).headD false,
          ((data.drop 42).take 1).headD false,
          parse_int_from_bits ((data.drop 43).take 3)⟩)
    simp [h] at hsf
    refine ⟨sf, ?_⟩
    simp [decodeFields, ht, hh, h, hsf, Bind.bind, Except.bind]
  · obtain ⟨sf, hsf⟩ :=
      except_map_snd _ _ (decode_subframe_3_cursor data hlen
        ⟨((data.drop 22).take 1).headD false⟩
        ⟨(data.drop 24).take 17, ((data.drop 41).take 1).headD false,
          ((data.drop 42).take 1).headD false,
          parse_int_from_bits ((data.drop 43).take 3)⟩)
    simp [h] at hsf
    refine ⟨sf, ?_⟩
    simp [decodeFields, ht, hh, h, hsf, Bind.bind, Except.bind]
  · refine ⟨⟨⟨((data.drop 22).take 1).headD false⟩,
      ⟨(data.drop 24).take 17, ((data.drop 41).take 1).headD false,
        ((data.drop 42).take 1).headD false,
        parse_int_from_bits ((data.drop 43).take 3)⟩, .sf4⟩, ?_⟩
    simp [decodeFields, ht, hh, h, Bind.bind, Except.bind]
  · refine ⟨⟨⟨((data.drop 22).take 1).headD false⟩,
      ⟨(data.drop 24).take 17, ((data.drop 41).take 1).headD false,
        ((data.drop 42).take 1).headD false,
        parse_int_from_bits ((data.drop 43).take 3)⟩, .sf5⟩, ?_⟩
    simp [decodeFields, ht, hh, h, Bind.bind, Except.bind]

theorem decodeFields_cursor_witness :
    (dataSf4Example.length = 240 ∧
     dataSf4Example.take 8 = [true, false, false, false, true, false, true, true] ∧
     1 ≤ parse_int_from_bits ((dataSf4Example.drop 43).take 3) ∧
     parse_int_from_bits ((dataSf4Example.drop 43).take 3) ≤ 5) ∧
    ((∃ sf, decodeFields dataSf4Example = .ok (sf,
        if parse_int_from_bits ((dataSf4Example.drop 43).take 3) ≤ 3
        then 240 else 48)) ∧
     ∀ d : List Bool, d.length = 240 →
       decodeFields d ≠ Except.error DecodeError.pastEnd) :=
⟨⟨by decide, by decide, by decide, by decide⟩,
 decodeFields_cursor dataSf4Example (by decide) (by decide) (by decide)
   (by decide)⟩

/-- C10 counterexample: a 240-bit data layout with valid preamble and
subframe id 4 is parsed successfully with a final cursor of 48, not 240 —
"each of the five subframe layouts consumes exactly 240 bits" fails for
subframes 4 and 5 (the unreachability of the past-end branch holds
regardless). -/
theorem decode_subframe_4_consumes_48 :
    decodeFields dataSf4Example
      = .ok (⟨⟨false⟩, ⟨List.replicate 17 false, false, false, 4⟩,
          .sf4⟩, 48) ∧
    (48 : ℕ) ≠ 240 := by
  constructor
  · rfl
  · decide

theorem map_neg_eq_iff (l p : List ℤ) :
    l.map (fun u => -u) = p ↔ l = p.map (fun u => -u) := by
  constructor
  · intro h
    rw [← h, List.map_map]
    simp
  · intro h
    rw [h, List.map_map]
    simp

theorem all_subframes_neg (preamble bits : List ℤ) :
    all_subframes_start_with_preamble preamble (bits.map (fun u => -u))
      = all_subframes_start_with_preamble (preamble.map (fun u => -u)) bits := by
  unfold all_subframes_start_with_preamble
  rw [List.length_map, List.length_map]
  apply congrArg
  funext t
  rw [show ((bits.map (fun u => -u)).drop (300 * t))
      = (bits.drop (300 * t)).map (fun u => -u) from (List.map_drop _ _ _).symm]
  rw [show (((bits.drop (300 * t)).map (fun u => -u)).take preamble.length)
      = ((bits.drop (300 * t)).take preamble.length).map (fun u => -u) from
    (List.map_take _ _ _).symm]
  rw [Bool.eq_iff_iff]
  simp only [beq_iff_eq]
  exact map_neg_eq_iff _ _

theorem tlm_neg : TLM_PREAMBLE.map (fun u : ℤ => -u) = INVERSE_TLM_PREAMBLE := by
  decide

theorem inv_neg : INVERSE_TLM_PREAMBLE.map (fun u : ℤ => -u) = TLM_PREAMBLE := by
  decide

theorem not_both_preambles (bits : List ℤ) (h : 300 ≤ bits.length) :
    ¬(all_subframes_start_with_preamble TLM_PREAMBLE bits = true ∧
      all_subframes_start_with_preamble INVERSE_TLM_PREAMBLE bits = true) := by
  rintro ⟨h1, h2⟩
  unfold all_subframes_start_with_preamble at h1 h2
  have hc : 0 ∈ List.range
      ((bits.length - (BITS_PER_SUBFRAME - 1) + 299) / 300) := by
    rw [List.mem_range]
    have hB : BITS_PER_SUBFRAME = 300 := rfl
    rw [hB]
    omega
  have e1 := List.all_eq_true.mp h1 0 hc
  have e2 := List.all_eq_true.mp h2 0 hc
  simp only [Nat.mul_zero, List.drop_zero, beq_iff_eq,
    show TLM_PREAMBLE.length = 8 from rfl,
    show INVERSE_TLM_PREAMBLE.length = 8 from rfl] at e1 e2
  rw [e1] at e2
  exact absurd e2 (by decide)

theorem findSome?_map_rel {α β γ : Type} (m : β → γ) :
    ∀ (l : List α) (f : α → Option β) (g : α → Option γ),
      (∀ a ∈ l, g a = (f a).map m) →
      l.findSome? g = (l.findSome? f).map m := by
  intro l
  induction l with
  | nil => intro f g h; simp
  | cons a tl ih =>
    intro f g h
    rw [List.findSome?_cons, List.findSome?_cons, h a (List.mem_cons_self a tl)]
    cases hfa : f a with
    | none =>
      simp only [Option.map_none']
      exact ih f g (fun x hx => h x (List.mem_cons_of_mem _ hx))
    | some b => simp

theorem determine_bit_phase_pm (bits : List ℤ) (po : ℤ × ℕ)
    (h : determine_bit_phase bits = some po) : po.1 = 1 ∨ po.1 = -1 := by
  unfold determine_bit_phase at h
  obtain ⟨o, ho, hf⟩ := List.exists_of_findSome?_eq_some h
  dsimp only at hf
  by_cases h1 :
      all_subframes_start_with_preamble TLM_PREAMBLE (bits.drop o) = true
  · rw [if_pos h1] at hf
    cases hf
    left
    rfl
  · rw [if_neg h1] at hf
    by_cases h2 : all_subframes_start_with_preamble INVERSE_TLM_PREAMBLE
        (bits.drop o) = true
    · rw [if_pos h2] at hf
      cases hf
      right
      rfl
    · rw [if_neg h2] at hf
      cases hf

theorem determine_bit_phase_neg (bits : List ℤ) (hlen : 599 ≤ bits.length) :
    determine_bit_phase (bits.map (fun u => -u))
      = (determine_bit_phase bits).map (fun po => (-po.1, po.2)) := by
  unfold determine_bit_phase
  apply findSome?_map_rel
  intro o ho
  rw [List.mem_range] at ho
  have hB : BITS_PER_SUBFRAME = 300 := rfl
  rw [hB] at ho
  have hdlen : 300 ≤ (bits.drop o).length := by
    rw [List.length_drop]
    omega
  have hnb := not_both_preambles (bits.drop o) hdlen
  dsimp only
  rw [show ((bits.map (fun u => -u)).drop o)
      = (bits.drop o).map (fun u => -u) from (List.map_drop _ _ _).symm]
  rw [all_subframes_neg, all_subframes_neg, tlm_neg, inv_neg]
  by_cases h1 :
      all_subframes_start_with_preamble TLM_PREAMBLE (bits.drop o) = true
  · have h2 : ¬ all_subframes_start_with_preamble INVERSE_TLM_PREAMBLE
        (bits.drop o) = true := fun h2 => hnb ⟨h1, h2⟩
    simp [h1, h2]
  · by_cases h2 : all_subframes_start_with_preamble INVERSE_TLM_PREAMBLE
        (bits.drop o) = true
    · simp [h1, h2]
    · simp [h1, h2]

theorem resolve_bit_neg (p u : ℤ) (hp : p = 1 ∨ p = -1)
    (hu : u = 1 ∨ u = -1) :
    resolve_bit (-p) (-u) = resolve_bit p u := by
  rcases hp with hp | hp <;> rcases hu with hu | hu <;>
    subst hp <;> subst hu <;> decide

theorem emitSubframesFuel_neg (p : ℤ) (hp : p = 1 ∨ p = -1) :
    ∀ (fuel : ℕ) (bits : List ℤ), (∀ u ∈ bits, u = 1 ∨ u = -1) →
      emitSubframesFuel (-p) fuel (bits.map (fun u => -u))
        = ((emitSubframesFuel p fuel bits).1,
            (emitSubframesFuel p fuel bits).2.map (fun u => -u)) := by
  intro fuel
  induction fuel with
  | zero => intro bits h; rfl
  | succ n ih =>
    intro bits h
    by_cases hc : BITS_PER_SUBFRAME ≤ bits.length
    · have hc' : BITS_PER_SUBFRAME ≤ (bits.map (fun u => -u)).length := by
        rw [List.length_map]
        exact hc
      have hchunk : ((bits.map (fun u => -u)).take BITS_PER_SUBFRAME).map
            (resolve_bit (-p))
          = (bits.take BITS_PER_SUBFRAME).map (resolve_bit p) := by
        rw [show ((bits.map (fun u => -u)).take BITS_PER_SUBFRAME)
            = (bits.take BITS_PER_SUBFRAME).map (fun u => -u) from
          (List.map_take _ _ _).symm]
        rw [List.map_map]
        apply List.map_congr_left
        intro u hu
        simp only [Function.comp_apply]
        exact resolve_bit_neg p u hp (h u (List.take_subset _ _ hu))
      have hdrop : (bits.map (fun u => -u)).drop BITS_PER_SUBFRAME
          = (bits.drop BITS_PER_SUBFRAME).map (fun u => -u) :=
        (List.map_drop _ _ _).symm
      simp only [emitSubframesFuel, if_pos hc, if_pos hc']
      rw [hdrop, ih (bits.drop BITS_PER_SUBFRAME)
        (fun u hu => h u (List.drop_subset _ _ hu)), hchunk]
    · have hc' : ¬ BITS_PER_SUBFRAME ≤ (bits.map (fun u => -u)).length := by
        rw [List.length_map]
        exact hc
      simp only [emitSubframesFuel, if_neg hc, if_neg hc']

theorem emitSubframes_neg (p : ℤ) (hp : p = 1 ∨ p = -1) (bits : List ℤ)
    (h : ∀ u ∈ bits, u = 1 ∨ u = -1) :
    emitSubframes (-p) (bits.map (fun u => -u))
      = ((emitSubframes p bits).1,
          (emitSubframes p bits).2.map (fun u => -u)) := by
  unfold emitSubframes
  rw [List.length_map]
  exact emitSubframesFuel_neg p hp _ bits h

theorem emitSubframesFuel_subset (p : ℤ) :
    ∀ (fuel : ℕ) (bits : List ℤ) (u : ℤ),
      u ∈ (emitSubframesFuel p fuel bits).2 → u ∈ bits := by
  intro fuel
  induction fuel with
  | zero => intro bits u h; exact h
  | succ n ih =>
    intro bits u h
    by_cases hc : BITS_PER_SUBFRAME ≤ bits.length
    · simp only [emitSubframesFuel, if_pos hc] at h
      exact List.drop_subset _ _ (ih _ u h)
    · simp only [emitSubframesFuel, if_neg hc] at h
      exact h

theorem stateOK_handle (s : BitIntegratorState) (u : ℤ) (hs : StateOK s)
    (hu : u = 1 ∨ u = -1) (s' : BitIntegratorState)
    (h : handle_unresolved_bit s u = some s') : StateOK s' := by
  obtain ⟨hphase, hbits⟩ := hs
  have hball : ∀ v ∈ s.unresolved_bits ++ [u], v = 1 ∨ v = -1 := by
    intro v hv
    rcases List.mem_append.mp hv with hv | hv
    · exact hbits v hv
    · rw [List.mem_singleton] at hv
      subst hv
      exact hu
  unfold handle_unresolved_bit at h
  rcases hphase with hnone | h1 | hm1
  · rw [hnone] at h
    dsimp only at h
    by_cases hlen : BITS_REQUIRED_TO_DETERMINE_BIT_PHASE
        ≤ (s.unresolved_bits ++ [u]).length
    · rw [if_pos hlen] at h
      cases hd : determine_bit_phase (s.unresolved_bits ++ [u]) with
      | none => rw [hd] at h; cases h
      | some po =>
        obtain ⟨phase, off⟩ := po
        rw [hd] at h
        dsimp only at h
        cases h
        refine ⟨?_, ?_⟩
        · rcases determine_bit_phase_pm _ _ hd with hpm | hpm
        <;> simp at hpm <;> simp [hpm]
        · intro v hv
          exact hball v (List.drop_subset _ _
            (emitSubframesFuel_subset _ _ _ v hv))
    · rw [if_neg hlen] at h
      cases h
      exact ⟨Or.inl rfl, hball⟩
  · rw [h1] at h
    dsimp only at h
    cases h
    refine ⟨Or.inr (Or.inl rfl), ?_⟩
    intro v hv
    exact hball v (emitSubframesFuel_subset _ _ _ v hv)
  · rw [hm1] at h
    dsimp only at h
    cases h
    refine ⟨Or.inr (Or.inr rfl), ?_⟩
    intro v hv
    exact hball v (emitSubframesFuel_subset _ _ _ v hv)

theorem handle_unresolved_bit_neg (s : BitIntegratorState) (u : ℤ)
    (hs : StateOK s) (hu : u = 1 ∨ u = -1) :
    handle_unresolved_bit (mirror s) (-u)
      = (handle_unresolved_bit s u).map mirror := by
  obtain ⟨hphase, hbits⟩ := hs
  have hball : ∀ v ∈ s.unresolved_bits ++ [u], v = 1 ∨ v = -1 := by
    intro v hv
    rcases List.mem_append.mp hv with hv | hv
    · exact hbits v hv
    · rw [List.mem_singleton] at hv
      subst hv
      exact hu
  have hbuf : (mirror s).unresolved_bits ++ [-u]
      = (s.unresolved_bits ++ [u]).map (fun v => -v) := by
    simp [mirror]
  unfold handle_unresolved_bit
  rcases hphase with hnone | h1 | hm1
  · rw [hnone, show (mirror s).bit_phase = none by simp [mirror, hnone]]
    dsimp only
    rw [hbuf, List.length_map]
    by_cases hlen : BITS_REQUIRED_TO_DETERMINE_BIT_PHASE
        ≤ (s.unresolved_bits ++ [u]).length
    · rw [if_pos hlen, if_pos hlen]
      have h599 : 599 ≤ (s.unresolved_bits ++ [u]).length := by
        have hB : BITS_REQUIRED_TO_DETERMINE_BIT_PHASE = 1200 := rfl
        rw [hB] at hlen
        omega
      rw [determine_bit_phase_neg _ h599]
      cases hd : determine_bit_phase (s.unresolved_bits ++ [u]) with
      | none => simp
      | some po =>
        obtain ⟨phase, off⟩ := po
        have hpm := determine_bit_phase_pm _ _ hd
        simp only [Option.map_some']
        rw [show ((s.unresolved_bits ++ [u]).map (fun v => -v)).drop off
            = ((s.unresolved_bits ++ [u]).drop off).map (fun v => -v) from
          (List.map_drop _ _ _).symm]
        rw [emitSubframes_neg phase hpm _
          (fun v hv => hball v (List.drop_subset _ _ hv))]
        simp [mirror, hnone]
    · rw [if_neg hlen, if_neg hlen]
      simp [mirror, hbuf]
  · rw [h1, show (mirror s).bit_phase = some (-1) by simp [mirror, h1]]
    dsimp only
    rw [hbuf, show (-1 : ℤ) = -(1 : ℤ) from rfl,
      emitSubframes_neg 1 (Or.inl rfl) _ hball]
    simp [mirror, h1]
  · rw [hm1, show (mirror s).bit_phase = some 1 by simp [mirror, hm1]]
    dsimp only
    rw [hbuf, show (1 : ℤ) = -(-1 : ℤ) by norm_num,
      emitSubframes_neg (-1) (Or.inr rfl) _ hball]
    simp [mirror, hm1]

theorem runBitIntegrator_neg_aux :
    ∀ (inputs : List ℤ) (s : BitIntegratorState), StateOK s →
      (∀ u ∈ inputs, u = 1 ∨ u = -1) →
      List.foldlM handle_unresolved_bit (mirror s)
          (inputs.map (fun u => -u))
        = (List.foldlM handle_unresolved_bit s inputs).map mirror := by
  intro inputs
  induction inputs with
  | nil => intro s _ _; rfl
  | cons a tl ih =>
    intro s hs h
    rw [List.map_cons, List.foldlM_cons, List.foldlM_cons]
    rw [handle_unresolved_bit_neg s a hs (h a (List.mem_cons_self a tl))]
    cases hh : handle_unresolved_bit s a with
    | none => simp
    | some s' =>
      simp only [Option.map_some']
      show (some s' >>= fun s'' => List.foldlM handle_unresolved_bit
          (mirror s'') (tl.map (fun u => -u))) = _
      simp only [Option.bind_eq_bind, Option.some_bind]
      exact ih s' (stateOK_handle s a hs (h a (List.mem_cons_self a tl)) s' hh)
        (fun u hu => h u (List.mem_cons_of_mem _ hu))

/-- C8: if a run of the `BitIntegrator` over a sequence of `UnresolvedBit`s
(each ±1) determines bit phase +1, then the run over the bitwise-inverted
sequence succeeds with bit phase -1, emits exactly the same resolved 300-bit
subframes, and holds the inverted buffer; moreover `_determine_bit_phase` on
an inverted buffer yields the negated phase at the same offset. -/
theorem bit_integrator_inversion (inputs : List ℤ)
    (hval : ∀ u ∈ inputs, u = 1 ∨ u = -1) (s : BitIntegratorState)
    (hrun : runBitIntegrator inputs = some s)
    (hphase : s.bit_phase = some 1) :
    (runBitIntegrator (inputs.map (fun u => -u)) = some (mirror s) ∧
      (mirror s).bit_phase = some (-1) ∧
      (mirror s).emitted = s.emitted ∧
      (mirror s).unresolved_bits = s.unresolved_bits.map (fun u => -u)) ∧
    ∀ bits : List ℤ, 599 ≤ bits.length →
      determine_bit_phase (bits.map (fun u => -u))
        = (determine_bit_phase bits).map (fun po => (-po.1, po.2)) := by
  refine ⟨⟨?_, ?_, rfl, rfl⟩, fun bits hb => determine_bit_phase_neg bits hb⟩
  · have h := runBitIntegrator_neg_aux inputs ⟨none, [], []⟩
      ⟨Or.inl rfl, by simp⟩ hval
    have hmi : mirror ⟨none, [], []⟩ = ⟨none, [], []⟩ := rfl
    rw [hmi] at h
    unfold runBitIntegrator at hrun ⊢
    rw [h, hrun]
    rfl
  · simp [mirror, hphase]

/-- While fewer than 1200 bits have accumulated and no phase is known, the
`BitIntegrator` only buffers its input bits. -/
theorem runBuffer : ∀ (pre acc : List ℤ),
    acc.length + pre.length < BITS_REQUIRED_TO_DETERMINE_BIT_PHASE →
    List.foldlM handle_unresolved_bit ⟨none, acc, []⟩ pre
      = some ⟨none, acc ++ pre, []⟩ := by
  intro pre
  induction pre with
  | nil => intro acc _; simp [List.foldlM_nil]
  | cons u tl ih =>
    intro acc h
    rw [List.foldlM_cons]
    have hlen : ¬ (BITS_REQUIRED_TO_DETERMINE_BIT_PHASE ≤ acc.length + 1) := by
      simp only [List.length_cons] at h
      omega
    have hstep : handle_unresolved_bit ⟨none, acc, []⟩ u = some ⟨none, acc ++ [u], []⟩ := by
      unfold handle_unresolved_bit
      simp [hlen]
    rw [hstep]
    simp only [Option.bind_eq_bind, Option.some_bind]
    have htl := ih (acc ++ [u]) (by
      simp only [List.length_append, List.length_cons, List.length_nil] at h ⊢
      omega)
    rw [htl]
    simp

set_option maxHeartbeats 8000000 in
theorem bit_integrator_inversion_witness :
    ((∀ u ∈ unresolvedBitsExample, u = 1 ∨ u = -1) ∧
     runBitIntegrator unresolvedBitsExample
       = some ⟨some 1, [], List.replicate 4 emittedExample⟩ ∧
     (BitIntegratorState.mk (some 1) [] (List.replicate 4 emittedExample)
       ).bit_phase = some 1) ∧
    ((runBitIntegrator (unresolvedBitsExample.map (fun u => -u))
        = some (mirror ⟨some 1, [], List.replicate 4 emittedExample⟩) ∧
      (mirror ⟨some 1, [], List.replicate 4 emittedExample⟩).bit_phase
        = some (-1) ∧
      (mirror ⟨some 1, [], List.replicate 4 emittedExample⟩).emitted
        = (BitIntegratorState.mk (some 1) []
            (List.replicate 4 emittedExample)).emitted ∧
      (mirror ⟨some 1, [], List.replicate 4 emittedExample⟩).unresolved_bits
        = (BitIntegratorState.mk (some 1) []
            (List.replicate 4 emittedExample)).unresolved_bits.map
          (fun u => -u)) ∧
     ∀ bits : List ℤ, 599 ≤ bits.length →
       determine_bit_phase (bits.map (fun u => -u))
         = (determine_bit_phase bits).map (fun po => (-po.1, po.2))) :=
by
  have hval : ∀ u ∈ unresolvedBitsExample, u = 1 ∨ u = -1 := by
    intro u hu
    rw [unresolvedBitsExample, List.mem_flatten] at hu
    obtain ⟨l, hl, hul⟩ := hu
    rw [List.eq_of_mem_replicate hl] at hul
    rcases List.mem_append.mp hul with h | h
    · simp [TLM_PREAMBLE] at h
      rcases h with h | h | h | h | h
      · exact Or.inl h
      · exact Or.inr h
      · exact Or.inl h
      · exact Or.inr h
      · exact Or.inl h
    · rw [List.eq_of_mem_replicate h]
      left
      rfl
  have hrun : runBitIntegrator unresolvedBitsExample
      = some ⟨some 1, [], List.replicate 4 emittedExample⟩ := by
    have hdrop : unresolvedBitsExample.drop 1199 = [(1 : ℤ)] := by decide
    have hpre : (unresolvedBitsExample.take 1199).length
        < BITS_REQUIRED_TO_DETERMINE_BIT_PHASE := by decide
    have hfinal : handle_unresolved_bit
        ⟨none, unresolvedBitsExample.take 1199, []⟩ 1
        = some ⟨some 1, [], List.replicate 4 emittedExample⟩ := by decide
    show List.foldlM handle_unresolved_bit ⟨none, [], []⟩ unresolvedBitsExample
        = some ⟨some 1, [], List.replicate 4 emittedExample⟩
    conv_lhs => rw [← List.take_append_drop 1199 unresolvedBitsExample, hdrop]
    rw [List.foldlM_append]
    rw [runBuffer (unresolvedBitsExample.take 1199) [] (by simpa using hpre)]
    simp only [Option.bind_eq_bind, Option.some_bind, List.nil_append]
    rw [List.foldlM_cons, hfinal]
    simp [List.foldlM_nil]
  exact ⟨⟨hval, hrun, rfl⟩,
    bit_integrator_inversion unresolvedBitsExample hval
      ⟨some 1, [], List.replicate 4 emittedExample⟩ hrun rfl⟩

/-- Reading an updated entry of a list back out. -/
theorem getD_set_self (l : List Bool) (i : ℕ) (a d : Bool) (h : i < l.length) :
    (l.set i a).getD i d = a := by
  rw [List.getD_eq_getElem?_getD, List.getElem?_set_eq_of_lt a h]
  rfl

/-- Updates do not affect other entries. -/
theorem getD_set_ne (l : List Bool) (i j : ℕ) (a d : Bool) (h : i ≠ j) :
    (l.set i a).getD j d = l.getD j d := by
  rw [List.getD_eq_getElem?_getD, List.getElem?_set_ne h, ← List.getD_eq_getElem?_getD]

/-- Flipping one bit does not affect other entries. -/
theorem flipBit_getD_ne (l : List Bool) (i j : ℕ) (h : i ≠ j) :
    (flipBit l i).getD j false = l.getD j false :=
  getD_set_ne l i j _ false h

/-- XORing twice with the same bit is the identity, elementwise on a list. -/
theorem map_xor_xor (w : List Bool) (b : Bool) :
    ((w.map fun x => xor x b).map fun x => xor x b) = w := by
  rw [List.map_map]
  have h : ∀ x, ((fun x => xor x b) ∘ fun x => xor x b) x = id x := by
    intro x; cases x <;> cases b <;> rfl
  rw [funext h, List.map_id]

/-- Negating the parity accumulator negates the computed parity. -/
theorem computed_parity_not (idxs : List ℕ) : ∀ (prev : Bool) (d : List Bool),
    computed_parity (!prev) d idxs = ! computed_parity prev d idxs := by
  induction idxs with
  | nil => intro prev d; rfl
  | cons i tl ih =>
    intro prev d
    simp only [computed_parity, List.foldl_cons]
    rw [show xor (!prev) (d.getD (i - 1) false) = !(xor prev (d.getD (i - 1) false)) from by
      cases prev <;> cases d.getD (i - 1) false <;> rfl]
    have h := ih (xor prev (d.getD (i - 1) false)) d
    simpa only [computed_parity] using h

/-- Setting a data bit that none of the indices select leaves the parity
unchanged. -/
theorem computed_parity_set_ne (idxs : List ℕ) :
    ∀ (prev : Bool) (d : List Bool) (j : ℕ) (v : Bool),
    (∀ i ∈ idxs, i - 1 ≠ j) →
    computed_parity prev (d.set j v) idxs = computed_parity prev d idxs := by
  induction idxs with
  | nil => intro prev d j v _; rfl
  | cons i tl ih =>
    intro prev d j v h
    simp only [computed_parity, List.foldl_cons]
    rw [getD_set_ne d j (i - 1) v false (Ne.symm (h i (List.mem_cons_self i tl)))]
    have h2 := ih (xor prev (d.getD (i - 1) false)) d j v
      (fun i2 h2 => h i2 (List.mem_cons_of_mem _ h2))
    simpa only [computed_parity] using h2

/-- Flipping a data bit selected exactly once by the indices negates the
computed parity. -/
theorem computed_parity_set_flip (idxs : List ℕ) :
    ∀ (prev : Bool) (d : List Bool) (j : ℕ),
    j < d.length → idxs.count (j + 1) = 1 → (∀ i ∈ idxs, 1 ≤ i) →
    computed_parity prev (d.set j (!(d.getD j false))) idxs
      = ! computed_parity prev d idxs := by
  induction idxs with
  | nil => intro prev d j _ hc _; simp [List.count_nil] at hc
  | cons i tl ih =>
    intro prev d j hj hc hpos
    by_cases hi : i = j + 1
    · have htl : tl.count (j + 1) = 0 := by
        simp [List.count_cons, hi] at hc
        omega
      have hne : ∀ i2 ∈ tl, i2 - 1 ≠ j := by
        intro i2 h2
        have hmem : (j + 1) ∉ tl := List.count_eq_zero.mp htl
        have h1 : 1 ≤ i2 := hpos i2 (List.mem_cons_of_mem _ h2)
        have : i2 ≠ j + 1 := fun hcontra => hmem (hcontra ▸ h2)
        omega
      simp only [computed_parity, List.foldl_cons, hi, Nat.add_sub_cancel]
      rw [getD_set_self d j _ false hj]
      rw [show xor prev (!(d.getD j false)) = !(xor prev (d.getD j false)) from by
        cases prev <;> cases d.getD j false <;> rfl]
      have hB := computed_parity_set_ne tl (!(xor prev (d.getD j false))) d j
        (!(d.getD j false)) hne
      have hA := computed_parity_not tl (xor prev (d.getD j false)) d
      simp only [computed_parity] at hB hA
      rw [hB, hA]
    · have htl : tl.count (j + 1) = 1 := by
        simp [List.count_cons, hi] at hc
        omega
      have hne : i - 1 ≠ j := by
        have := hpos i (List.mem_cons_self i tl)
        omega
      simp only [computed_parity, List.foldl_cons]
      rw [getD_set_ne d j (i - 1) _ false (Ne.symm hne)]
      have h2 := ih (xor prev (d.getD (i - 1) false)) d j hj htl
        (fun i2 hm => hpos i2 (List.mem_cons_of_mem _ hm))
      simpa only [computed_parity] using h2

/-- After flipping a data bit selected exactly once, the parity check against
the originally computed parity fails. -/
theorem verify_parity_flip (prev : Bool) (d : List Bool) (j : ℕ) (idxs : List ℕ)
    (hj : j < d.length) (hc : idxs.count (j + 1) = 1) (hpos : ∀ i ∈ idxs, 1 ≤ i) :
    verify_parity (computed_parity prev d idxs) prev
      (d.set j (!(d.getD j false))) idxs = false := by
  unfold verify_parity
  rw [computed_parity_set_flip idxs prev d j hj hc hpos]
  cases computed_parity prev d idxs <;> rfl

/-- A negated transmitted parity bit fails the parity check. -/
theorem verify_parity_not (prev : Bool) (d : List Bool) (idxs : List ℕ) :
    verify_parity (!(computed_parity prev d idxs)) prev d idxs = false := by
  unfold verify_parity
  cases computed_parity prev d idxs <;> rfl

/-- Length of a synthetically encoded word. -/
theorem encodeWord_length (w : List Bool) (hw : w.length = 24) (b29 b30 : Bool) :
    (encodeWord w b29 b30).length = 30 := by
  simp [encodeWord, hw]

/-- Length of a synthetically encoded subframe. -/
theorem encodeWords_length : ∀ (ws : List (List Bool)) (b29 b30 : Bool),
    (∀ w ∈ ws, w.length = 24) → (encodeWords ws b29 b30).length = 30 * ws.length := by
  intro ws
  induction ws with
  | nil => intro b29 b30 _; rfl
  | cons w rest ih =>
    intro b29 b30 h
    simp only [encodeWords, List.length_append, List.length_cons]
    rw [encodeWord_length w (h w (List.mem_cons_self w rest)) b29 b30,
      ih _ _ (fun w2 h2 => h w2 (List.mem_cons_of_mem _ h2))]
    ring

/-- Decoding a correctly encoded word recovers its data bits. -/
theorem decodeWordData_encodeWord (w : List Bool) (hw : w.length = 24) (b29 b30 : Bool) :
    decodeWordData (encodeWord w b29 b30) b30 = w := by
  unfold decodeWordData encodeWord
  rw [List.take_left' (by simp [hw])]
  exact map_xor_xor w b30

/-- Transmitted bit 25 of an encoded word. -/
theorem encodeWord_getD_24 (w : List Bool) (hw : w.length = 24) (b29 b30 : Bool) :
    (encodeWord w b29 b30).getD 24 false = computed_parity b29 w PARITY_INDICES_25 := by
  unfold encodeWord
  rw [List.getD_append_right _ _ _ _ (by simp [hw])]
  simp [hw]

/-- Transmitted bit 26 of an encoded word. -/
theorem encodeWord_getD_25 (w : List Bool) (hw : w.length = 24) (b29 b30 : Bool) :
    (encodeWord w b29 b30).getD 25 false = computed_parity b30 w PARITY_INDICES_26 := by
  unfold encodeWord
  rw [List.getD_append_right _ _ _ _ (by simp [hw])]
  simp [hw]

/-- Transmitted bit 27 of an encoded word. -/
theorem encodeWord_getD_26 (w : List Bool) (hw : w.length = 24) (b29 b30 : Bool) :
    (encodeWord w b29 b30).getD 26 false = computed_parity b29 w PARITY_INDICES_27 := by
  unfold encodeWord
  rw [List.getD_append_right _ _ _ _ (by simp [hw])]
  simp [hw]

/-- Transmitted bit 28 of an encoded word. -/
theorem encodeWord_getD_27 (w : List Bool) (hw : w.length = 24) (b29 b30 : Bool) :
    (encodeWord w b29 b30).getD 27 false = computed_parity b30 w PARITY_INDICES_28 := by
  unfold encodeWord
  rw [List.getD_append_right _ _ _ _ (by simp [hw])]
  simp [hw]

/-- Transmitted bit 29 of an encoded word. -/
theorem encodeWord_getD_28 (w : List Bool) (hw : w.length = 24) (b29 b30 : Bool) :
    (encodeWord w b29 b30).getD 28 false = computed_parity b30 w PARITY_INDICES_29 := by
  unfold encodeWord
  rw [List.getD_append_right _ _ _ _ (by simp [hw])]
  simp [hw]

/-- Transmitted bit 30 of an encoded word. -/
theorem encodeWord_getD_29 (w : List Bool) (hw : w.length = 24) (b29 b30 : Bool) :
    (encodeWord w b29 b30).getD 29 false = computed_parity b29 w PARITY_INDICES_30 := by
  unfold encodeWord
  rw [List.getD_append_right _ _ _ _ (by simp [hw])]
  simp [hw]

/-- A correctly encoded word passes all six parity checks. -/
theorem checkWordParity_encodeWord (w : List Bool) (hw : w.length = 24) (b29 b30 : Bool) :
    checkWordParity (encodeWord w b29 b30) b29 b30 = true := by
  simp only [checkWordParity]
  rw [decodeWordData_encodeWord w hw b29 b30,
    encodeWord_getD_24 w hw b29 b30, encodeWord_getD_25 w hw b29 b30,
    encodeWord_getD_26 w hw b29 b30, encodeWord_getD_27 w hw b29 b30,
    encodeWord_getD_28 w hw b29 b30, encodeWord_getD_29 w hw b29 b30]
  simp [verify_parity]


/-- Decoding a correctly encoded subframe recovers all data words. -/
theorem decodeWords_encodeWords : ∀ (ws : List (List Bool)) (b29 b30 : Bool),
    (∀ w ∈ ws, w.length = 24) →
    decodeWords (splitWords ws.length (encodeWords ws b29 b30)) b29 b30
      = some ws.flatten := by
  intro ws
  induction ws with
  | nil => intro b29 b30 _; rfl
  | cons w rest ih =>
    intro b29 b30 h
    have hw : w.length = 24 := h w (List.mem_cons_self w rest)
    have hrest : ∀ w2 ∈ rest, w2.length = 24 :=
      fun w2 h2 => h w2 (List.mem_cons_of_mem _ h2)
    have hE : (encodeWord w b29 b30).length = 30 := encodeWord_length w hw b29 b30
    simp only [List.length_cons, encodeWords, splitWords]
    rw [List.take_left' hE, List.drop_left' hE]
    simp only [decodeWords]
    rw [checkWordParity_encodeWord w hw b29 b30]
    simp only [if_true]
    rw [encodeWord_getD_28 w hw b29 b30, encodeWord_getD_29 w hw b29 b30,
      ih _ _ hrest, decodeWordData_encodeWord w hw b29 b30]
    simp

/-- Flipping a data bit (transmitted position < 24) of an encoded word flips
the corresponding recovered data bit. -/
theorem decodeWordData_flip_data (w : List Bool) (hw : w.length = 24)
    (b29 b30 : Bool) (r : ℕ) (hr : r < 24) :
    decodeWordData (flipBit (encodeWord w b29 b30) r) b30
      = w.set r (!(w.getD r false)) := by
  have hT : (w.map fun b => xor b b30).length = 24 := by simp [hw]
  unfold flipBit encodeWord decodeWordData
  rw [List.getD_append _ _ _ _ (by omega)]
  rw [List.set_append, if_pos (by omega)]
  rw [List.take_left' (by simp [hw])]
  rw [List.map_set, map_xor_xor w b30]
  have hgd : (w.map fun b => xor b b30).getD r false = xor (w.getD r false) b30 := by
    rw [List.getD_eq_getElem _ _ (by omega), List.getD_eq_getElem _ _ (by omega : r < w.length)]
    simp
  rw [hgd]
  cases w.getD r false <;> cases b30 <;> rfl

/-- Flipping a parity bit (transmitted position ≥ 24) of an encoded word
leaves the recovered data bits unchanged. -/
theorem decodeWordData_flip_parity (w : List Bool) (hw : w.length = 24)
    (b29 b30 : Bool) (r : ℕ) (hr : 24 ≤ r) :
    decodeWordData (flipBit (encodeWord w b29 b30) r) b30 = w := by
  have hT : (w.map fun b => xor b b30).length = 24 := by simp [hw]
  unfold flipBit encodeWord decodeWordData
  rw [List.set_append, if_neg (by omega)]
  rw [List.take_left' hT]
  exact map_xor_xor w b30

/-- Flipping any single bit of a correctly encoded word makes its parity
check fail. -/
theorem checkWordParity_flipBit (w : List Bool) (hw : w.length = 24)
    (b29 b30 : Bool) (r : ℕ) (hr : r < 30) :
    checkWordParity (flipBit (encodeWord w b29 b30) r) b29 b30 = false := by
  have hE : (encodeWord w b29 b30).length = 30 := encodeWord_length w hw b29 b30
  by_cases hdata : r < 24
  · simp only [checkWordParity]
    rw [decodeWordData_flip_data w hw b29 b30 r hdata]
    rw [flipBit_getD_ne _ r 24 (by omega), flipBit_getD_ne _ r 25 (by omega),
      flipBit_getD_ne _ r 26 (by omega), flipBit_getD_ne _ r 27 (by omega),
      flipBit_getD_ne _ r 28 (by omega), flipBit_getD_ne _ r 29 (by omega)]
    rw [encodeWord_getD_24 w hw b29 b30, encodeWord_getD_25 w hw b29 b30,
      encodeWord_getD_26 w hw b29 b30, encodeWord_getD_27 w hw b29 b30,
      encodeWord_getD_28 w hw b29 b30, encodeWord_getD_29 w hw b29 b30]
    have hcover : ∀ s < 24, PARITY_INDICES_25.count (s + 1) = 1 ∨
        PARITY_INDICES_26.count (s + 1) = 1 ∨ PARITY_INDICES_27.count (s + 1) = 1 ∨
        PARITY_INDICES_28.count (s + 1) = 1 ∨ PARITY_INDICES_29.count (s + 1) = 1 ∨
        PARITY_INDICES_30.count (s + 1) = 1 := by decide
    rcases hcover r hdata with hc | hc | hc | hc | hc | hc
    · rw [verify_parity_flip b29 w r PARITY_INDICES_25 (by omega) hc (by decide)]
      simp
    · rw [verify_parity_flip b30 w r PARITY_INDICES_26 (by omega) hc (by decide)]
      simp
    · rw [verify_parity_flip b29 w r PARITY_INDICES_27 (by omega) hc (by decide)]
      simp
    · rw [verify_parity_flip b30 w r PARITY_INDICES_28 (by omega) hc (by decide)]
      simp
    · rw [verify_parity_flip b30 w r PARITY_INDICES_29 (by omega) hc (by decide)]
      simp
    · rw [verify_parity_flip b29 w r PARITY_INDICES_30 (by omega) hc (by decide)]
      simp
  · have h6 : r = 24 ∨ r = 25 ∨ r = 26 ∨ r = 27 ∨ r = 28 ∨ r = 29 := by omega
    have hx : ∀ s, s < 30 → (flipBit (encodeWord w b29 b30) s).getD s false
        = !((encodeWord w b29 b30).getD s false) := by
      intro s hs
      unfold flipBit
      exact getD_set_self _ s _ false (by omega)
    rcases h6 with h | h | h | h | h | h <;> subst h <;>
      simp only [checkWordParity] <;>
      rw [decodeWordData_flip_parity w hw b29 b30 _ (by omega)]
    · rw [hx 24 (by omega), flipBit_getD_ne _ 24 25 (by omega),
        flipBit_getD_ne _ 24 26 (by omega), flipBit_getD_ne _ 24 27 (by omega),
        flipBit_getD_ne _ 24 28 (by omega), flipBit_getD_ne _ 24 29 (by omega),
        encodeWord_getD_24 w hw b29 b30, verify_parity_not]
      simp
    · rw [hx 25 (by omega), flipBit_getD_ne _ 25 24 (by omega),
        flipBit_getD_ne _ 25 26 (by omega), flipBit_getD_ne _ 25 27 (by omega),
        flipBit_getD_ne _ 25 28 (by omega), flipBit_getD_ne _ 25 29 (by omega),
        encodeWord_getD_25 w hw b29 b30, verify_parity_not]
      simp
    · rw [hx 26 (by omega), flipBit_getD_ne _ 26 24 (by omega),
        flipBit_getD_ne _ 26 25 (by omega), flipBit_getD_ne _ 26 27 (by omega),
        flipBit_getD_ne _ 26 28 (by omega), flipBit_getD_ne _ 26 29 (by omega),
        encodeWord_getD_26 w hw b29 b30, verify_parity_not]
      simp
    · rw [hx 27 (by omega), flipBit_getD_ne _ 27 24 (by omega),
        flipBit_getD_ne _ 27 25 (by omega), flipBit_getD_ne _ 27 26 (by omega),
        flipBit_getD_ne _ 27 28 (by omega), flipBit_getD_ne _ 27 29 (by omega),
        encodeWord_getD_27 w hw b29 b30, verify_parity_not]
      simp
    · rw [hx 28 (by omega), flipBit_getD_ne _ 28 24 (by omega),
        flipBit_getD_ne _ 28 25 (by omega), flipBit_getD_ne _ 28 26 (by omega),
        flipBit_getD_ne _ 28 27 (by omega), flipBit_getD_ne _ 28 29 (by omega),
        encodeWord_getD_28 w hw b29 b30, verify_parity_not]
      simp
    · rw [hx 29 (by omega), flipBit_getD_ne _ 29 24 (by omega),
        flipBit_getD_ne _ 29 25 (by omega), flipBit_getD_ne _ 29 26 (by omega),
        flipBit_getD_ne _ 29 27 (by omega), flipBit_getD_ne _ 29 28 (by omega),
        encodeWord_getD_29 w hw b29 b30, verify_parity_not]
      simp


/-- Flipping any single bit of a correctly encoded subframe makes the word
loop fail with a parity error. -/
theorem decodeWords_flipBit : ∀ (ws : List (List Bool)) (b29 b30 : Bool) (i : ℕ),
    (∀ w ∈ ws, w.length = 24) → i < 30 * ws.length →
    decodeWords (splitWords ws.length (flipBit (encodeWords ws b29 b30) i)) b29 b30
      = none := by
  intro ws
  induction ws with
  | nil => intro b29 b30 i _ hi; simp at hi
  | cons w rest ih =>
    intro b29 b30 i h hi
    have hw : w.length = 24 := h w (List.mem_cons_self w rest)
    have hrest : ∀ w2 ∈ rest, w2.length = 24 :=
      fun w2 h2 => h w2 (List.mem_cons_of_mem _ h2)
    have hE : (encodeWord w b29 b30).length = 30 := encodeWord_length w hw b29 b30
    simp only [List.length_cons] at hi ⊢
    by_cases hlt : i < 30
    · have hflip : flipBit (encodeWords (w :: rest) b29 b30) i
          = flipBit (encodeWord w b29 b30) i
            ++ encodeWords rest (computed_parity b30 w PARITY_INDICES_29)
              (computed_parity b29 w PARITY_INDICES_30) := by
        simp only [encodeWords]
        unfold flipBit
        rw [List.getD_append _ _ _ _ (by omega)]
        rw [List.set_append, if_pos (by omega)]
      rw [hflip]
      have hFl : (flipBit (encodeWord w b29 b30) i).length = 30 := by
        simp [flipBit, hE]
      simp only [splitWords]
      rw [List.take_left' hFl, List.drop_left' hFl]
      simp only [decodeWords]
      rw [checkWordParity_flipBit w hw b29 b30 i hlt]
      simp
    · have hflip : flipBit (encodeWords (w :: rest) b29 b30) i
          = encodeWord w b29 b30
            ++ flipBit (encodeWords rest (computed_parity b30 w PARITY_INDICES_29)
              (computed_parity b29 w PARITY_INDICES_30)) (i - 30) := by
        simp only [encodeWords]
        unfold flipBit
        rw [List.getD_append_right _ _ _ _ (by omega)]
        rw [List.set_append, if_neg (by omega)]
        rw [hE]
      rw [hflip]
      simp only [splitWords]
      rw [List.take_left' hE, List.drop_left' hE]
      simp only [decodeWords]
      rw [checkWordParity_encodeWord w hw b29 b30]
      simp only [if_true]
      rw [encodeWord_getD_28 w hw b29 b30, encodeWord_getD_29 w hw b29 b30,
        ih _ _ (i - 30) hrest (by omega)]
      rfl

/-- C4: for every 240-bit data layout given as ten 24-bit words, encoding it
into a 300-bit transmitted subframe with correct IS-GPS-200 parity (each
word's 24 data bits XORed with bit 30 of the previous word, six parity bits
appended, bits 29/30 before the first word taken as 0) and decoding it with
`_decode_subframe_data` returns exactly the original 240 data bits; and
flipping any single one of the 300 transmitted bits makes the decode raise
`ParityError` (modelled as `none`). -/
theorem decode_subframe_data_roundtrip (words : List (List Bool))
    (h10 : words.length = 10) (h24 : ∀ w ∈ words, w.length = 24) :
    decode_subframe_data (encode_subframe words) = some words.flatten ∧
    ∀ i : ℕ, i < 300 → decode_subframe_data (flipBit (encode_subframe words) i) = none := by
  have hlen : (encode_subframe words).length = 300 := by
    unfold encode_subframe
    rw [encodeWords_length words false false h24, h10]
  constructor
  · unfold decode_subframe_data
    rw [if_pos hlen]
    have h := decodeWords_encodeWords words false false h24
    rw [h10] at h
    exact h
  · intro i hi
    unfold decode_subframe_data
    rw [if_pos (by simp [flipBit, hlen])]
    have h := decodeWords_flipBit words false false i h24 (by omega)
    rw [h10] at h
    exact h

/-- Witness for C4 at a concrete 240-bit layout: the round trip recovers the
data bits and flipping transmitted bit 17 yields a parity error. -/
theorem decode_subframe_data_roundtrip_witness :
    wordsExample.length = 10 ∧ (∀ w ∈ wordsExample, w.length = 24) ∧
    decode_subframe_data (encode_subframe wordsExample) = some wordsExample.flatten ∧
    decode_subframe_data (flipBit (encode_subframe wordsExample) 17) = none :=
  ⟨by decide, by decide,
    (decode_subframe_data_roundtrip wordsExample (by decide) (by decide)).1,
    (decode_subframe_data_roundtrip wordsExample (by decide) (by decide)).2 17
      (by decide)⟩

end GpsReceiver
